import Mathlib

/-!
# Vegetable harvester tool controller

A shallow embedding of `src/firmware/tool_controller.c` and of the hardware
layer it drives.

* The hardware abstraction layer (`hw_*`) is modelled as explicit state
  passing on a `World`: the motor outputs and status LED (`HwState`), the
  number of samples already taken from each digital input, and the
  chronological trace of every hardware call made so far.
* The two digital inputs are streams (`Inputs`): the n-th call of
  `hw_emergency_stop_signal` returns `inp.estop n`, the n-th call of
  `hw_start_signal` returns `inp.start n` (both counted from 0).
* `uint32_t` arithmetic is `Nat` arithmetic modulo `2 ^ 32`; a `uint8_t` duty
  is a `Nat` (every 8-bit value is one of them).
* The loops of the C code may fail to terminate, so they carry a fuel
  argument and return `none` when the fuel is exhausted. Every loop entered
  gets the whole fuel: `fuel` bounds the iterations of each single loop.
* `main` never returns; `main inp fuel n w` is the state at the end of its
  `n`-th loop iteration ("tick").

The file first embeds the code, then gives closed forms of the traces and
worlds the code produces (`pollTrace`, `cycleTrace`, `cycleWorld`, ...), then
proves the properties.
-/

namespace Harvester

/-- The C enum `MotorId` (without the `MOTOR_COUNT` sentinel). -/
inductive MotorId where
  | MOTOR_GRIPPER
  | MOTOR_VERTICAL
  | MOTOR_AUX
  deriving DecidableEq, Repr

/-- The C enum `MotorDirection`. -/
inductive MotorDirection where
  | MOTOR_DIR_STOP
  | MOTOR_DIR_FORWARD
  | MOTOR_DIR_REVERSE
  deriving DecidableEq, Repr

open MotorId MotorDirection

/-- Semantic direction mapping: `#define GRIPPER_DIR_OPEN MOTOR_DIR_FORWARD`. -/
def GRIPPER_DIR_OPEN : MotorDirection := MOTOR_DIR_FORWARD
/-- Semantic direction mapping: `#define GRIPPER_DIR_CLOSE MOTOR_DIR_REVERSE`. -/
def GRIPPER_DIR_CLOSE : MotorDirection := MOTOR_DIR_REVERSE
/-- Semantic direction mapping: `#define VERTICAL_DIR_DOWN MOTOR_DIR_FORWARD`. -/
def VERTICAL_DIR_DOWN : MotorDirection := MOTOR_DIR_FORWARD
/-- Semantic direction mapping: `#define VERTICAL_DIR_UP MOTOR_DIR_REVERSE`. -/
def VERTICAL_DIR_UP : MotorDirection := MOTOR_DIR_REVERSE

def TOOL_OPEN_GRIPPER_TIME_MS : Nat := 800
def TOOL_CLOSE_GRIPPER_TIME_MS : Nat := 900
def TOOL_MOVE_DOWN_TIME_MS : Nat := 1200
def TOOL_MOVE_UP_TIME_MS : Nat := 900
def TOOL_SETTLE_TIME_MS : Nat := 150
def TOOL_INTER_CYCLE_DELAY_MS : Nat := 250

def TOOL_SPEED_GRIPPER : Nat := 60
def TOOL_SPEED_VERTICAL : Nat := 70

/-- Number of values of a `uint32_t`. -/
def UINT32_MOD : Nat := 4294967296

/-- One call into the hardware layer, as it appears in the trace. -/
inductive Event where
  | motor_set (id : MotorId) (dir : MotorDirection) (duty_percent : Nat)
  | motor_brake (id : MotorId)
  | delay_ms (ms : Nat)
  | set_status_led (led_on : Bool)
  | send_status (text : String)
  | start_signal (value : Bool)
  | emergency_stop_signal (value : Bool)
  deriving DecidableEq, Repr

/-- Output of one motor driver: braked, or driven with a direction and duty. -/
inductive MotorOut where
  | braked
  | driven (dir : MotorDirection) (duty_percent : Nat)
  deriving DecidableEq, Repr

/-- The outputs of the hardware: the three motor drivers and the status LED. -/
structure HwState where
  gripper : MotorOut
  vertical : MotorOut
  aux : MotorOut
  led : Bool
  deriving DecidableEq, Repr

/-- The digital inputs, as the streams of values their successive reads return. -/
structure Inputs where
  start : Nat → Bool
  estop : Nat → Bool

/-- Everything the controller can change: hardware outputs, how many samples
of each input were consumed, and the trace of hardware calls (oldest first). -/
structure World where
  hw : HwState
  startReads : Nat
  estopReads : Nat
  trace : List Event
  deriving DecidableEq, Repr

/-- Update of one motor output. -/
def HwState.setMotor (h : HwState) (id : MotorId) (out : MotorOut) : HwState :=
  match id with
  | MOTOR_GRIPPER => { h with gripper := out }
  | MOTOR_VERTICAL => { h with vertical := out }
  | MOTOR_AUX => { h with aux := out }

/-- Read-out of one motor output. -/
def HwState.motor (h : HwState) (id : MotorId) : MotorOut :=
  match id with
  | MOTOR_GRIPPER => h.gripper
  | MOTOR_VERTICAL => h.vertical
  | MOTOR_AUX => h.aux

/-- `void hw_motor_set(MotorId id, MotorDirection dir, uint8_t duty_percent)`. -/
def hw_motor_set (id : MotorId) (dir : MotorDirection) (duty_percent : Nat) (w : World) : World :=
  { w with hw := w.hw.setMotor id (MotorOut.driven dir duty_percent),
           trace := w.trace ++ [Event.motor_set id dir duty_percent] }

/-- `void hw_motor_brake(MotorId id)`. -/
def hw_motor_brake (id : MotorId) (w : World) : World :=
  { w with hw := w.hw.setMotor id MotorOut.braked,
           trace := w.trace ++ [Event.motor_brake id] }

/-- `void hw_delay_ms(uint32_t ms)`: a blocking wait, recorded in the trace. -/
def hw_delay_ms (ms : Nat) (w : World) : World :=
  { w with trace := w.trace ++ [Event.delay_ms ms] }

/-- `bool hw_start_signal(void)`: consumes the next sample of the start input. -/
def hw_start_signal (inp : Inputs) (w : World) : Bool × World :=
  (inp.start w.startReads,
   { w with startReads := w.startReads + 1,
            trace := w.trace ++ [Event.start_signal (inp.start w.startReads)] })

/-- `bool hw_emergency_stop_signal(void)`: consumes the next sample of the
emergency-stop input. -/
def hw_emergency_stop_signal (inp : Inputs) (w : World) : Bool × World :=
  (inp.estop w.estopReads,
   { w with estopReads := w.estopReads + 1,
            trace := w.trace ++ [Event.emergency_stop_signal (inp.estop w.estopReads)] })

/-- `void hw_set_status_led(bool on)`. -/
def hw_set_status_led (led_on : Bool) (w : World) : World :=
  { w with hw := { w.hw with led := led_on },
           trace := w.trace ++ [Event.set_status_led led_on] }

/-- `void hw_send_status(const char *text)`. -/
def hw_send_status (text : String) (w : World) : World :=
  { w with trace := w.trace ++ [Event.send_status text] }

/-- The `while (elapsed < time_ms)` loop of `run_motor_for_time` together with
the `hw_motor_brake(id)` that follows it. `elapsed` is a `uint32_t`, so
`elapsed += step_ms` wraps modulo `2 ^ 32`. -/
def run_motor_loop (inp : Inputs) (id : MotorId) (time_ms : Nat) :
    Nat → Nat → World → Option World
  | 0, _, _ => none
  | fuel + 1, elapsed, w =>
    if elapsed < time_ms then
      let r := hw_emergency_stop_signal inp w
      if r.1 then
        some (hw_send_status "EMERGENCY STOP\n"
          (hw_motor_brake MOTOR_AUX
            (hw_motor_brake MOTOR_VERTICAL
              (hw_motor_brake MOTOR_GRIPPER r.2))))
      else
        run_motor_loop inp id time_ms fuel ((elapsed + 10) % UINT32_MOD) (hw_delay_ms 10 r.2)
    else
      some (hw_motor_brake id w)

/-- `static void run_motor_for_time(MotorId id, MotorDirection dir,
uint8_t duty_percent, uint32_t time_ms)`: clamp the duty, command the motor,
then poll (`step_ms = 10`, `elapsed = 0`). -/
def run_motor_for_time (inp : Inputs) (fuel : Nat) (id : MotorId) (dir : MotorDirection)
    (duty_percent : Nat) (time_ms : Nat) (w : World) : Option World :=
  let duty_percent := if duty_percent > 100 then 100 else duty_percent
  run_motor_loop inp id time_ms fuel 0 (hw_motor_set id dir duty_percent w)

/-- `void tool_run_single_harvest_cycle(void)`. -/
def tool_run_single_harvest_cycle (inp : Inputs) (fuel : Nat) (w : World) : Option World := do
  let w := hw_send_status "[Tool] Harvest cycle START\n" w
  let w := hw_set_status_led true w
  let w := hw_send_status "[Tool] Opening gripper\n" w
  let w ← run_motor_for_time inp fuel MOTOR_GRIPPER GRIPPER_DIR_OPEN
    TOOL_SPEED_GRIPPER TOOL_OPEN_GRIPPER_TIME_MS w
  let w := hw_delay_ms TOOL_SETTLE_TIME_MS w
  let w := hw_send_status "[Tool] Closing gripper\n" w
  let w ← run_motor_for_time inp fuel MOTOR_GRIPPER GRIPPER_DIR_CLOSE
    TOOL_SPEED_GRIPPER TOOL_CLOSE_GRIPPER_TIME_MS w
  let w := hw_delay_ms TOOL_SETTLE_TIME_MS w
  let w := hw_send_status "[Tool] Moving down for cut\n" w
  let w ← run_motor_for_time inp fuel MOTOR_VERTICAL VERTICAL_DIR_DOWN
    TOOL_SPEED_VERTICAL TOOL_MOVE_DOWN_TIME_MS w
  let w := hw_delay_ms TOOL_SETTLE_TIME_MS w
  let w := hw_send_status "[Tool] Moving up / retract\n" w
  let w ← run_motor_for_time inp fuel MOTOR_VERTICAL VERTICAL_DIR_UP
    TOOL_SPEED_VERTICAL TOOL_MOVE_UP_TIME_MS w
  let w := hw_delay_ms TOOL_SETTLE_TIME_MS w
  let w := hw_send_status "[Tool] Releasing gripper\n" w
  let w ← run_motor_for_time inp fuel MOTOR_GRIPPER GRIPPER_DIR_OPEN
    TOOL_SPEED_GRIPPER TOOL_OPEN_GRIPPER_TIME_MS w
  let w := hw_set_status_led false w
  some (hw_send_status "[Tool] Harvest cycle END\n" w)

/-- `void tool_emergency_stop(void)`. -/
def tool_emergency_stop (w : World) : World :=
  let w := hw_motor_brake MOTOR_GRIPPER w
  let w := hw_motor_brake MOTOR_VERTICAL w
  let w := hw_motor_brake MOTOR_AUX w
  let w := hw_set_status_led false w
  hw_send_status "[Tool] EMERGENCY STOP triggered\n" w

/-- The hold loop of `main`: `while (hw_emergency_stop_signal()) { hw_delay_ms(10); }`. -/
def estop_hold_loop (inp : Inputs) : Nat → World → Option World
  | 0, _ => none
  | fuel + 1, w =>
    let r := hw_emergency_stop_signal inp w
    if r.1 then estop_hold_loop inp fuel (hw_delay_ms 10 r.2) else some r.2

/-- One iteration of the `while (1)` loop of `main`: takes the value of
`previous_start_state` and returns its new value with the new world. -/
def main_tick (inp : Inputs) (fuel : Nat) (previous_start_state : Bool) (w : World) :
    Option (Bool × World) := do
  let rs := hw_start_signal inp w
  let start := rs.1
  let re := hw_emergency_stop_signal inp rs.2
  let w ← if re.1 then estop_hold_loop inp fuel (tool_emergency_stop re.2) else some re.2
  let w ← if start && !previous_start_state then
      (tool_run_single_harvest_cycle inp fuel w).map (hw_delay_ms TOOL_INTER_CYCLE_DELAY_MS)
    else some w
  some (start, hw_delay_ms 10 w)

/-- The first `n` iterations of the `while (1)` loop of `main`. -/
def main_ticks (inp : Inputs) (fuel : Nat) : Nat → Bool → World → Option (Bool × World)
  | 0, previous_start_state, w => some (previous_start_state, w)
  | n + 1, previous_start_state, w =>
    match main_tick inp fuel previous_start_state w with
    | none => none
    | some r => main_ticks inp fuel n r.1 r.2

/-- `int main(void)` up to the end of the `n`-th loop iteration. `hw_init` has
no effect on the modelled state; `previous_start_state` starts `false`. -/
def main (inp : Inputs) (fuel : Nat) (n : Nat) (w : World) : Option (Bool × World) :=
  main_ticks inp fuel n false
    (hw_send_status "[Tool] Vegetable harvester tool controller ready\n" w)

/-- A power-on world: all outputs braked, LED off, nothing read, empty trace. -/
def World.init : World :=
  { hw := { gripper := MotorOut.braked, vertical := MotorOut.braked,
            aux := MotorOut.braked, led := false },
    startReads := 0, estopReads := 0, trace := [] }

/-- The hardware calls made between world `w` and a later world `w'`. -/
def issued (w w' : World) : List Event := w'.trace.drop w.trace.length

/-- Trace of `n` untripped polling increments: a `false` emergency-stop read
followed by a 10 ms delay, `n` times. -/
def pollTrace : Nat → List Event
  | 0 => []
  | n + 1 => Event.emergency_stop_signal false :: Event.delay_ms 10 :: pollTrace n

/-- Trace of the trip path of `run_motor_for_time`. -/
def tripTrace : List Event :=
  [Event.emergency_stop_signal true, Event.motor_brake MOTOR_GRIPPER,
   Event.motor_brake MOTOR_VERTICAL, Event.motor_brake MOTOR_AUX,
   Event.send_status "EMERGENCY STOP\n"]

/-- Recognisers for the kinds of event. -/
def Event.isMotorSet : Event → Bool
  | Event.motor_set _ _ _ => true
  | _ => false

def Event.isBrake : Event → Bool
  | Event.motor_brake _ => true
  | _ => false

def Event.isDelay : Event → Bool
  | Event.delay_ms _ => true
  | _ => false

/-- Whether the event is a command addressed to motor `id`. -/
def Event.addresses (id : MotorId) : Event → Bool
  | Event.motor_set i _ _ => i = id
  | Event.motor_brake i => i = id
  | _ => false

/-- World reached from `w` by `m` untripped polling increments. -/
def polled (m : Nat) (w : World) : World :=
  { w with estopReads := w.estopReads + m, trace := w.trace ++ pollTrace m }

/-- World reached from `w` by the trip path of `run_motor_for_time`: one
emergency-stop read, three brakes and the status text. -/
def tripped (w : World) : World :=
  { hw := { gripper := MotorOut.braked, vertical := MotorOut.braked,
            aux := MotorOut.braked, led := w.hw.led },
    startReads := w.startReads,
    estopReads := w.estopReads + 1,
    trace := w.trace ++ tripTrace }

/-- World in which one `run_motor_for_time` call ends: by the trip path when
`trip` is true, by the brake of the commanded motor otherwise. -/
def stepEnd (id : MotorId) (trip : Bool) (w : World) : World :=
  if trip then tripped w else hw_motor_brake id w

/-- What `run_motor_for_time` issues after its `hw_motor_set`: `m` untripped
increments, then the trip path or the brake of the commanded motor. -/
def stepTail (id : MotorId) (m : Nat) (trip : Bool) : List Event :=
  pollTrace m ++ (if trip then tripTrace else [Event.motor_brake id])

/-- How a step outcome `r` (`r.1` untripped increments, then tripped iff `r.2`)
relates to the emergency-stop stream, for a step of duration `time_ms` whose
first poll is read number `base`: the first `r.1` reads are false; a tripped
step read true next, before the duration had elapsed; an untripped step made
exactly `ceil(time_ms / 10)` increments. -/
def stepFacts (inp : Inputs) (time_ms base : Nat) (r : Nat × Bool) : Prop :=
  (∀ i, i < r.1 → inp.estop (base + i) = false) ∧
  (r.2 = true → inp.estop (base + r.1) = true ∧ 10 * r.1 < time_ms) ∧
  (r.2 = false → r.1 = (time_ms + 9) / 10)

/-- Number of emergency-stop reads made by a step with outcome `r`. -/
def stepReads (r : Nat × Bool) : Nat := r.1 + (if r.2 then 1 else 0)

/-- World in which `tool_run_single_harvest_cycle` ends when step `i` made
`ri.1` untripped increments and then tripped (`ri.2 = true`) or completed. -/
def cycleWorld (r1 r2 r3 r4 r5 : Nat × Bool) (w : World) : World :=
  let w := hw_send_status "[Tool] Harvest cycle START\n" w
  let w := hw_set_status_led true w
  let w := hw_send_status "[Tool] Opening gripper\n" w
  let w := stepEnd MOTOR_GRIPPER r1.2 (polled r1.1
    (hw_motor_set MOTOR_GRIPPER MOTOR_DIR_FORWARD 60 w))
  let w := hw_delay_ms 150 w
  let w := hw_send_status "[Tool] Closing gripper\n" w
  let w := stepEnd MOTOR_GRIPPER r2.2 (polled r2.1
    (hw_motor_set MOTOR_GRIPPER MOTOR_DIR_REVERSE 60 w))
  let w := hw_delay_ms 150 w
  let w := hw_send_status "[Tool] Moving down for cut\n" w
  let w := stepEnd MOTOR_VERTICAL r3.2 (polled r3.1
    (hw_motor_set MOTOR_VERTICAL MOTOR_DIR_FORWARD 70 w))
  let w := hw_delay_ms 150 w
  let w := hw_send_status "[Tool] Moving up / retract\n" w
  let w := stepEnd MOTOR_VERTICAL r4.2 (polled r4.1
    (hw_motor_set MOTOR_VERTICAL MOTOR_DIR_REVERSE 70 w))
  let w := hw_delay_ms 150 w
  let w := hw_send_status "[Tool] Releasing gripper\n" w
  let w := stepEnd MOTOR_GRIPPER r5.2 (polled r5.1
    (hw_motor_set MOTOR_GRIPPER MOTOR_DIR_FORWARD 60 w))
  let w := hw_set_status_led false w
  hw_send_status "[Tool] Harvest cycle END\n" w

/-- The hardware calls of the cycle that ends in `cycleWorld r1 r2 r3 r4 r5 w`. -/
def cycleTrace (r1 r2 r3 r4 r5 : Nat × Bool) : List Event :=
  [Event.send_status "[Tool] Harvest cycle START\n", Event.set_status_led true,
   Event.send_status "[Tool] Opening gripper\n",
   Event.motor_set MOTOR_GRIPPER MOTOR_DIR_FORWARD 60] ++
  stepTail MOTOR_GRIPPER r1.1 r1.2 ++
  [Event.delay_ms 150, Event.send_status "[Tool] Closing gripper\n",
   Event.motor_set MOTOR_GRIPPER MOTOR_DIR_REVERSE 60] ++
  stepTail MOTOR_GRIPPER r2.1 r2.2 ++
  [Event.delay_ms 150, Event.send_status "[Tool] Moving down for cut\n",
   Event.motor_set MOTOR_VERTICAL MOTOR_DIR_FORWARD 70] ++
  stepTail MOTOR_VERTICAL r3.1 r3.2 ++
  [Event.delay_ms 150, Event.send_status "[Tool] Moving up / retract\n",
   Event.motor_set MOTOR_VERTICAL MOTOR_DIR_REVERSE 70] ++
  stepTail MOTOR_VERTICAL r4.1 r4.2 ++
  [Event.delay_ms 150, Event.send_status "[Tool] Releasing gripper\n",
   Event.motor_set MOTOR_GRIPPER MOTOR_DIR_FORWARD 60] ++
  stepTail MOTOR_GRIPPER r5.1 r5.2 ++
  [Event.set_status_led false, Event.send_status "[Tool] Harvest cycle END\n"]

/-- The five `motor_set` commands of the scripted cycle, in order. -/
def scriptedMotorSets : List Event :=
  [Event.motor_set MOTOR_GRIPPER MOTOR_DIR_FORWARD 60,
   Event.motor_set MOTOR_GRIPPER MOTOR_DIR_REVERSE 60,
   Event.motor_set MOTOR_VERTICAL MOTOR_DIR_FORWARD 70,
   Event.motor_set MOTOR_VERTICAL MOTOR_DIR_REVERSE 70,
   Event.motor_set MOTOR_GRIPPER MOTOR_DIR_FORWARD 60]

/-- Commands that drive an output: motor commands and status-LED commands. -/
def Event.isOutputCommand : Event → Bool
  | Event.motor_set _ _ _ => true
  | Event.motor_brake _ => true
  | Event.set_status_led _ => true
  | _ => false

/-- The status text that only `tool_run_single_harvest_cycle` emits, as its
first hardware call: it marks one invocation of the harvest cycle. -/
def Event.isCycleStart : Event → Bool
  | Event.send_status text => text == "[Tool] Harvest cycle START\n"
  | _ => false

/-- The status text that only `tool_emergency_stop` emits: it marks one
invocation of the Safety Controller. -/
def Event.isSafetyStop : Event → Bool
  | Event.send_status text => text == "[Tool] EMERGENCY STOP triggered\n"
  | _ => false

/-- Number of harvest-cycle invocations recorded in a trace. -/
def cyclesStarted (tr : List Event) : Nat := (tr.filter Event.isCycleStart).length

/-- Number of `tool_emergency_stop` invocations recorded in a trace. -/
def safetyStops (tr : List Event) : Nat := (tr.filter Event.isSafetyStop).length

/-- The hardware calls of one `tool_emergency_stop` invocation. -/
def emergencyStopTrace : List Event :=
  [Event.motor_brake MOTOR_GRIPPER, Event.motor_brake MOTOR_VERTICAL,
   Event.motor_brake MOTOR_AUX, Event.set_status_led false,
   Event.send_status "[Tool] EMERGENCY STOP triggered\n"]

/-- Trace of `n` iterations of the hold loop of `main`: a `true` emergency-stop
read followed by a 10 ms delay, `n` times. -/
def holdTrace : Nat → List Event
  | 0 => []
  | n + 1 => Event.emergency_stop_signal true :: Event.delay_ms 10 :: holdTrace n

/-- World in which the hold loop of `main` ends after `n` asserted reads and
the deasserted read that releases it. -/
def held (n : Nat) (w : World) : World :=
  { w with estopReads := w.estopReads + n + 1,
           trace := w.trace ++ (holdTrace n ++ [Event.emergency_stop_signal false]) }

/-- Inputs whose emergency stop reads true at read number `n` only, with the
start signal always asserted. -/
def estopOnlyAt (n : Nat) : Inputs :=
  { start := fun _ => true, estop := fun i => decide (i = n) }

/-- Value of `previous_start_state` at the beginning of loop iteration `n`
(counted from 0) when iteration `i` sampled `s i`. -/
def prevAt (s : Nat → Bool) : Nat → Bool
  | 0 => false
  | n + 1 => s n

/-- Number of rising edges among the first `n` start samples, the sample
before the first one counting as false. -/
def edgeCount (s : Nat → Bool) (n : Nat) : Nat :=
  ((List.range n).filter (fun i => s i && !prevAt s i)).length

/-- Inputs whose start signal reads false, true, true, false and then false
for ever, with the emergency stop never asserted. -/
def startPulseInputs : Inputs :=
  { start := fun i => decide (i = 1 ∨ i = 2), estop := fun _ => false }

/-- Inputs whose emergency stop reads true five times and then false, with
the start signal never asserted. -/
def estopFiveInputs : Inputs :=
  { start := fun _ => false, estop := fun i => decide (i < 5) }

/-- Inputs on which neither signal is ever asserted. -/
def idleInputs : Inputs := { start := fun _ => false, estop := fun _ => false }

/-- A power-on world whose status LED is on (as it is during a cycle). -/
def ledOnWorld : World :=
  { hw := { gripper := MotorOut.braked, vertical := MotorOut.braked,
            aux := MotorOut.braked, led := true },
    startReads := 0, estopReads := 0, trace := [] }

/-- Status-LED commands. -/
def Event.isLed : Event → Bool
  | Event.set_status_led _ => true
  | _ => false

/-- Motor commands: `motor_set` and `motor_brake`. -/
def Event.isMotorCommand : Event → Bool
  | Event.motor_set _ _ _ => true
  | Event.motor_brake _ => true
  | _ => false

/-- Reads of the emergency-stop input. -/
def Event.isEstopRead : Event → Bool
  | Event.emergency_stop_signal _ => true
  | _ => false

/-- Milliseconds waited by an event: the argument of a delay, 0 otherwise. -/
def Event.delayOf : Event → Nat
  | Event.delay_ms ms => ms
  | _ => 0

/-- Sum of all the delays issued in a trace, in milliseconds. -/
def totalDelay (tr : List Event) : Nat := (tr.map Event.delayOf).sum

/-- Delay accumulated since the last emergency-stop read at the end of a
trace, starting from `acc` (`none`: no read so far). -/
def accAfter : Option Nat → List Event → Option Nat
  | acc, [] => acc
  | acc, e :: rest =>
    if e.isEstopRead then accAfter (some 0) rest
    else accAfter (acc.map (fun d => d + e.delayOf)) rest

/-- For each emergency-stop read of a trace that follows an earlier read, the
total delay issued between the two, in trace order; `acc` is the delay
accumulated since the last read before the trace (`none`: no read so far). -/
def gapsFrom : Option Nat → List Event → List Nat
  | _, [] => []
  | acc, e :: rest =>
    if e.isEstopRead then acc.toList ++ gapsFrom (some 0) rest
    else gapsFrom (acc.map (fun d => d + e.delayOf)) rest

/-- The total delay between every two consecutive emergency-stop reads of a trace. -/
def readGaps (tr : List Event) : List Nat := gapsFrom none tr

/-- Gaps between the reads made inside a step with outcome `r`. -/
def stepGaps (r : Nat × Bool) : List Nat :=
  List.replicate (if r.2 then r.1 else r.1 - 1) 10

/-- Delay between the last read of a step with outcome `r` and its end. -/
def stepAcc (r : Nat × Bool) : Nat := if r.2 then 0 else 10

/-- Effect of one hardware call on the outputs, as `hw_motor_set`,
`hw_motor_brake` and `hw_set_status_led` define it. -/
def applyEvent (h : HwState) : Event → HwState
  | Event.motor_set id dir duty_percent => h.setMotor id (MotorOut.driven dir duty_percent)
  | Event.motor_brake id => h.setMotor id MotorOut.braked
  | Event.set_status_led led_on => { h with led := led_on }
  | _ => h

/-- Outputs reached from `h` after the hardware calls of `tr`. -/
def replay (h : HwState) (tr : List Event) : HwState := tr.foldl applyEvent h

/-- A motor output is energized when it is driven, braked otherwise. -/
def MotorOut.energized : MotorOut → Bool
  | MotorOut.braked => false
  | MotorOut.driven _ _ => true

/-- Number of energized motors. -/
def HwState.energizedCount (h : HwState) : Nat :=
  (if h.gripper.energized then 1 else 0) + (if h.vertical.energized then 1 else 0) +
    (if h.aux.energized then 1 else 0)

/-- All three motors braked. -/
def HwState.allBraked (h : HwState) : Prop :=
  h.gripper = MotorOut.braked ∧ h.vertical = MotorOut.braked ∧ h.aux = MotorOut.braked

/-- Outputs with all three motors braked and the given LED value. -/
def brakedHw (led : Bool) : HwState :=
  { gripper := MotorOut.braked, vertical := MotorOut.braked, aux := MotorOut.braked,
    led := led }

/-- At most one motor is energized in `h` and after every further call of `tr`. -/
def safeAlong : HwState → List Event → Prop
  | h, [] => h.energizedCount ≤ 1
  | h, e :: rest => h.energizedCount ≤ 1 ∧ safeAlong (applyEvent h e) rest

namespace Stub

/-- The file-scope flags of `hw_stub.c`. -/
structure State where
  status_led_on : Bool
  emergency_stop_flag : Bool
  start_signal_state : Bool
  deriving DecidableEq, Repr

/-- Initial values: `status_led_on = false`, `emergency_stop_flag = false`,
`start_signal_state = true`. -/
def State.init : State :=
  { status_led_on := false, emergency_stop_flag := false, start_signal_state := true }

/-- `bool hw_start_signal(void)` of `hw_stub.c`. -/
def hw_start_signal (s : State) : Bool × State :=
  if s.start_signal_state then (true, { s with start_signal_state := false })
  else (false, s)

/-- `bool hw_emergency_stop_signal(void)` of `hw_stub.c`. -/
def hw_emergency_stop_signal (s : State) : Bool × State :=
  (s.emergency_stop_flag, s)

/-- `void hw_set_status_led(bool on)` of `hw_stub.c` (its effect on the flags). -/
def hw_set_status_led (led_on : Bool) (s : State) : State :=
  { s with status_led_on := led_on }

/-- Flags after `n` calls of `hw_start_signal`, the only function that
assigns `start_signal_state`. -/
def afterStartCalls : Nat → State → State
  | 0, s => s
  | n + 1, s => afterStartCalls n (hw_start_signal s).2

end Stub

/-- The input streams the stub hardware layer delivers: read `n` of the start
signal is what the `(n + 1)`-th call of `Stub.hw_start_signal` returns; every
emergency-stop read returns `emergency_stop_flag`, which no function of the
stub assigns. -/
def stubInputs : Inputs :=
  { start := fun n => (Stub.hw_start_signal (Stub.afterStartCalls n Stub.State.init)).1,
    estop := fun _ => (Stub.hw_emergency_stop_signal Stub.State.init).1 }

/-- The loop of `run_motor_for_time` run for at most `fuel` evaluations of
its condition: the same steps as `run_motor_loop`, but when the fuel runs out
the world reached so far is returned, so that a call that is still running (or
never returns) has a trace too. -/
def run_motor_loop_upto (inp : Inputs) (id : MotorId) (time_ms : Nat) :
    Nat → Nat → World → World
  | 0, _, w => w
  | fuel + 1, elapsed, w =>
    if elapsed < time_ms then
      let r := hw_emergency_stop_signal inp w
      if r.1 then
        hw_send_status "EMERGENCY STOP\n"
          (hw_motor_brake MOTOR_AUX
            (hw_motor_brake MOTOR_VERTICAL
              (hw_motor_brake MOTOR_GRIPPER r.2)))
      else
        run_motor_loop_upto inp id time_ms fuel ((elapsed + 10) % UINT32_MOD)
          (hw_delay_ms 10 r.2)
    else
      hw_motor_brake id w

/-- `run_motor_for_time` run for at most `fuel` evaluations of its loop
condition: the world reached by then, whether or not the call has returned. -/
def run_motor_for_time_upto (inp : Inputs) (fuel : Nat) (id : MotorId) (dir : MotorDirection)
    (duty_percent : Nat) (time_ms : Nat) (w : World) : World :=
  let duty_percent := if duty_percent > 100 then 100 else duty_percent
  run_motor_loop_upto inp id time_ms fuel 0 (hw_motor_set id dir duty_percent w)

/-- What the harvest cycle issues after its step `j` (1 to 5) has ended, when
the later steps have outcomes `r2 .. r5`: for each later step the 150 ms settle
delay, the step's status text, its `motor_set` and what the step issues after
it; then LED off and the END text. -/
def cycleRest (j : Nat) (r2 r3 r4 r5 : Nat × Bool) : List Event :=
  (if j < 2 then
    [Event.delay_ms 150, Event.send_status "[Tool] Closing gripper\n"] ++
      (Event.motor_set MOTOR_GRIPPER MOTOR_DIR_REVERSE 60 :: stepTail MOTOR_GRIPPER r2.1 r2.2)
   else []) ++
  ((if j < 3 then
    [Event.delay_ms 150, Event.send_status "[Tool] Moving down for cut\n"] ++
      (Event.motor_set MOTOR_VERTICAL MOTOR_DIR_FORWARD 70 :: stepTail MOTOR_VERTICAL r3.1 r3.2)
   else []) ++
  ((if j < 4 then
    [Event.delay_ms 150, Event.send_status "[Tool] Moving up / retract\n"] ++
      (Event.motor_set MOTOR_VERTICAL MOTOR_DIR_REVERSE 70 :: stepTail MOTOR_VERTICAL r4.1 r4.2)
   else []) ++
  ((if j < 5 then
    [Event.delay_ms 150, Event.send_status "[Tool] Releasing gripper\n"] ++
      (Event.motor_set MOTOR_GRIPPER MOTOR_DIR_FORWARD 60 :: stepTail MOTOR_GRIPPER r5.1 r5.2)
   else []) ++
  [Event.set_status_led false, Event.send_status "[Tool] Harvest cycle END\n"])))

/-- What the trip path of `run_motor_for_time` issues after the read that
observed the emergency stop asserted. -/
def afterTripRead : List Event :=
  [Event.motor_brake MOTOR_GRIPPER, Event.motor_brake MOTOR_VERTICAL,
   Event.motor_brake MOTOR_AUX, Event.send_status "EMERGENCY STOP\n"]

/-! ## The polling loop of `run_motor_for_time` -/

theorem polled_zero (w : World) : polled 0 w = w := by
  cases w
  simp [polled, pollTrace]

theorem run_motor_loop_trip (inp : Inputs) (id : MotorId) (time_ms fuel elapsed : Nat)
    (w : World) (hlt : elapsed < time_ms) (he : inp.estop w.estopReads = true) :
    run_motor_loop inp id time_ms (fuel + 1) elapsed w = some (tripped w) := by
  simp [run_motor_loop, hlt, hw_emergency_stop_signal, he, tripped, hw_send_status,
    hw_motor_brake, HwState.setMotor, tripTrace]

theorem run_motor_loop_done (inp : Inputs) (id : MotorId) (time_ms fuel elapsed : Nat)
    (w : World) (hge : ¬ elapsed < time_ms) :
    run_motor_loop inp id time_ms (fuel + 1) elapsed w = some (hw_motor_brake id w) := by
  simp [run_motor_loop, hge]

theorem run_motor_loop_step (inp : Inputs) (id : MotorId) (time_ms fuel elapsed : Nat)
    (w : World) (hlt : elapsed < time_ms) (he : inp.estop w.estopReads = false) :
    run_motor_loop inp id time_ms (fuel + 1) elapsed w =
      run_motor_loop inp id time_ms fuel ((elapsed + 10) % UINT32_MOD) (polled 1 w) := by
  simp [run_motor_loop, hlt, hw_emergency_stop_signal, he, polled, pollTrace, hw_delay_ms]

theorem polled_succ (m : Nat) (w : World) : polled m (polled 1 w) = polled (m + 1) w := by
  simp [polled, pollTrace, Nat.add_comm, Nat.add_left_comm]

/-- Running `m` untripped increments: the loop consumes `m` units of fuel and
`m` false readings, and continues from the wrapped elapsed time. -/
theorem run_motor_loop_polls (inp : Inputs) (id : MotorId) (time_ms fuel : Nat) :
    ∀ (m e : Nat) (w : World),
      (∀ i, i < m → (e + 10 * i) % UINT32_MOD < time_ms) →
      (∀ i, i < m → inp.estop (w.estopReads + i) = false) →
      run_motor_loop inp id time_ms (fuel + m) (e % UINT32_MOD) w =
        run_motor_loop inp id time_ms fuel ((e + 10 * m) % UINT32_MOD) (polled m w) := by
  intro m
  induction m with
  | zero => intro e w _ _; simp [polled_zero]
  | succ m ih =>
    intro e w hlt hes
    have h0 : e % UINT32_MOD < time_ms := by simpa using hlt 0 (Nat.succ_pos m)
    have he0 : inp.estop w.estopReads = false := by simpa using hes 0 (Nat.succ_pos m)
    rw [← Nat.add_assoc, run_motor_loop_step inp id time_ms (fuel + m) _ w h0 he0]
    have hmod : (e % UINT32_MOD + 10) % UINT32_MOD = (e + 10) % UINT32_MOD := by
      simp [Nat.add_mod]
    rw [hmod, ih (e + 10) (polled 1 w), polled_succ]
    · congr 2
      omega
    · intro i hi
      have := hlt (i + 1) (Nat.succ_lt_succ hi)
      rwa [show e + 10 + 10 * i = e + 10 * (i + 1) by omega]
    · intro i hi
      have := hes (i + 1) (Nat.succ_lt_succ hi)
      simpa [polled, Nat.add_assoc, Nat.add_comm 1 i] using this

/-- Every returning run of the loop made some number `m` of untripped
increments and then either tripped or braked the commanded motor. -/
theorem run_motor_loop_outcome (inp : Inputs) (id : MotorId) (time_ms : Nat) :
    ∀ (fuel elapsed : Nat) (w w' : World),
      run_motor_loop inp id time_ms fuel elapsed w = some w' →
      ∃ m, m < fuel ∧ (∀ i, i < m → inp.estop (w.estopReads + i) = false) ∧
        ((inp.estop (w.estopReads + m) = true ∧ w' = tripped (polled m w)) ∨
          w' = hw_motor_brake id (polled m w)) := by
  intro fuel
  induction fuel with
  | zero => intro elapsed w w' h; simp [run_motor_loop] at h
  | succ fuel ih =>
    intro elapsed w w' h
    by_cases hlt : elapsed < time_ms
    · cases he : inp.estop w.estopReads with
      | true =>
        rw [run_motor_loop_trip inp id time_ms fuel elapsed w hlt he] at h
        refine ⟨0, Nat.succ_pos fuel, fun i hi => absurd hi (Nat.not_lt_zero i), Or.inl ⟨?_, ?_⟩⟩
        · simpa using he
        · rw [polled_zero]; exact (Option.some.inj h).symm
      | false =>
        rw [run_motor_loop_step inp id time_ms fuel elapsed w hlt he] at h
        obtain ⟨m, hm, hfalse, hout⟩ := ih _ _ _ h
        have hreads : (polled 1 w).estopReads = w.estopReads + 1 := rfl
        refine ⟨m + 1, Nat.succ_lt_succ hm, ?_, ?_⟩
        · intro i hi
          cases i with
          | zero => simpa using he
          | succ i =>
            have := hfalse i (Nat.lt_of_succ_lt_succ hi)
            rwa [hreads, Nat.add_assoc, Nat.add_comm 1 i] at this
        · rw [polled_succ, hreads, Nat.add_assoc, Nat.add_comm 1 m] at hout
          exact hout
    · rw [run_motor_loop_done inp id time_ms fuel elapsed w hlt] at h
      refine ⟨0, Nat.succ_pos fuel, fun i hi => absurd hi (Nat.not_lt_zero i), Or.inr ?_⟩
      rw [polled_zero]; exact (Option.some.inj h).symm

/-- With a duration that cannot wrap the elapsed counter and enough fuel, the
loop returns whatever the emergency-stop input does. -/
theorem run_motor_loop_returns (inp : Inputs) (id : MotorId) (time_ms : Nat)
    (ht : time_ms + 10 ≤ UINT32_MOD) :
    ∀ (fuel elapsed : Nat) (w : World), 0 < fuel → time_ms + 10 ≤ elapsed + 10 * fuel →
      ∃ w', run_motor_loop inp id time_ms fuel elapsed w = some w' := by
  intro fuel
  induction fuel with
  | zero =>
    intro elapsed w h0 _
    exact absurd h0 (Nat.lt_irrefl 0)
  | succ fuel ih =>
    intro elapsed w _ h
    by_cases hlt : elapsed < time_ms
    · cases he : inp.estop w.estopReads with
      | true => exact ⟨_, run_motor_loop_trip inp id time_ms fuel elapsed w hlt he⟩
      | false =>
        rw [run_motor_loop_step inp id time_ms fuel elapsed w hlt he]
        have hmod : (elapsed + 10) % UINT32_MOD = elapsed + 10 := by
          apply Nat.mod_eq_of_lt
          omega
        apply ih
        · omega
        · omega
    · exact ⟨_, run_motor_loop_done inp id time_ms fuel elapsed w hlt⟩

/-! ## Traces -/

theorem issued_append (w w' : World) (l : List Event) (h : w'.trace = w.trace ++ l) :
    issued w w' = l := by
  simp [issued, h]

theorem pollTrace_filter (p : Event → Bool)
    (h1 : p (Event.emergency_stop_signal false) = false) (h2 : p (Event.delay_ms 10) = false) :
    ∀ n, (pollTrace n).filter p = []
  | 0 => rfl
  | n + 1 => by simp [pollTrace, h1, h2, pollTrace_filter p h1 h2 n]

theorem pollTrace_filter_isDelay :
    ∀ n, (pollTrace n).filter Event.isDelay = List.replicate n (Event.delay_ms 10)
  | 0 => rfl
  | n + 1 => by
    simp [pollTrace, Event.isDelay, pollTrace_filter_isDelay n, List.replicate_succ]

theorem pollTrace_length : ∀ n, (pollTrace n).length = 2 * n
  | 0 => rfl
  | n + 1 => by simp [pollTrace, pollTrace_length n]; omega

theorem clamp_eq_min (d : Nat) : (if d > 100 then 100 else d) = min d 100 := by
  split <;> omega

theorem stepEnd_trace (id : MotorId) (dir : MotorDirection) (duty m : Nat) (trip : Bool)
    (w : World) :
    (stepEnd id trip (polled m (hw_motor_set id dir duty w))).trace =
      w.trace ++ Event.motor_set id dir duty :: stepTail id m trip := by
  cases trip <;> simp [stepEnd, stepTail, tripped, polled, hw_motor_set, hw_motor_brake]

/-- Every returning call of `run_motor_for_time` issued its `hw_motor_set`
with the clamped duty, then `m` untripped increments, then tripped or braked. -/
theorem run_motor_for_time_outcome (inp : Inputs) (fuel : Nat) (id : MotorId)
    (dir : MotorDirection) (duty time_ms : Nat) (w w' : World)
    (h : run_motor_for_time inp fuel id dir duty time_ms w = some w') :
    ∃ m trip, m < fuel ∧
      w' = stepEnd id trip (polled m (hw_motor_set id dir (min duty 100) w)) ∧
      (∀ i, i < m → inp.estop (w.estopReads + i) = false) ∧
      (trip = true → inp.estop (w.estopReads + m) = true) := by
  unfold run_motor_for_time at h
  simp only [clamp_eq_min] at h
  obtain ⟨m, hm, hfalse, hout⟩ := run_motor_loop_outcome inp id time_ms _ _ _ _ h
  rcases hout with ⟨htrue, hw'⟩ | hw'
  · exact ⟨m, true, hm, by simpa [stepEnd] using hw', hfalse, fun _ => htrue⟩
  · exact ⟨m, false, hm, by simpa [stepEnd] using hw', hfalse, fun hc => by cases hc⟩

theorem run_motor_for_time_issued (inp : Inputs) (fuel : Nat) (id : MotorId)
    (dir : MotorDirection) (duty time_ms : Nat) (w w' : World)
    (h : run_motor_for_time inp fuel id dir duty time_ms w = some w') :
    ∃ m trip, issued w w' = Event.motor_set id dir (min duty 100) :: stepTail id m trip := by
  obtain ⟨m, trip, _, hw', _, _⟩ := run_motor_for_time_outcome inp fuel id dir duty time_ms w w' h
  exact ⟨m, trip, issued_append w w' _ (by rw [hw', stepEnd_trace])⟩

/-- Whether the loop returns depends on the fuel, the elapsed time and the
position in the emergency-stop stream only. -/
theorem run_motor_loop_isSome_congr (inp : Inputs) (id : MotorId) (time_ms : Nat) :
    ∀ (fuel elapsed : Nat) (w1 w2 : World), w1.estopReads = w2.estopReads →
      (run_motor_loop inp id time_ms fuel elapsed w1).isSome =
        (run_motor_loop inp id time_ms fuel elapsed w2).isSome := by
  intro fuel
  induction fuel with
  | zero => intro elapsed w1 w2 _; simp [run_motor_loop]
  | succ fuel ih =>
    intro elapsed w1 w2 hr
    by_cases hlt : elapsed < time_ms
    · cases he : inp.estop w1.estopReads with
      | true =>
        rw [run_motor_loop_trip inp id time_ms fuel elapsed w1 hlt he,
          run_motor_loop_trip inp id time_ms fuel elapsed w2 hlt (hr ▸ he)]
        rfl
      | false =>
        rw [run_motor_loop_step inp id time_ms fuel elapsed w1 hlt he,
          run_motor_loop_step inp id time_ms fuel elapsed w2 hlt (hr ▸ he)]
        exact ih _ _ _ (by simp [polled, hr])
    · rw [run_motor_loop_done inp id time_ms fuel elapsed w1 hlt,
        run_motor_loop_done inp id time_ms fuel elapsed w2 hlt]
      rfl

/-- The trip path taken at the `(m + 1)`-th poll: closed form of the result. -/
theorem run_motor_for_time_trips (inp : Inputs) (id : MotorId) (dir : MotorDirection)
    (duty time_ms m fuel : Nat) (w : World) (hfuel : m < fuel)
    (hpolled : ∀ j, j < m + 1 → (10 * j) % UINT32_MOD < time_ms)
    (hfalse : ∀ j, j < m → inp.estop (w.estopReads + j) = false)
    (htrue : inp.estop (w.estopReads + m) = true) :
    run_motor_for_time inp fuel id dir duty time_ms w =
      some (tripped (polled m (hw_motor_set id dir (min duty 100) w))) := by
  unfold run_motor_for_time
  simp only [clamp_eq_min]
  obtain ⟨f, rfl⟩ : ∃ f, fuel = (f + 1) + m := ⟨fuel - m - 1, by omega⟩
  have hp := run_motor_loop_polls inp id time_ms (f + 1) m 0
    (hw_motor_set id dir (min duty 100) w)
    (fun i hi => by simpa using hpolled i (Nat.lt_succ_of_lt hi))
    (fun i hi => by simpa [hw_motor_set] using hfalse i hi)
  rw [Nat.zero_mod] at hp
  rw [hp]
  apply run_motor_loop_trip
  · simpa using hpolled m (Nat.lt_succ_self m)
  · simpa [polled, hw_motor_set] using htrue

/-- C1. If the `k`-th emergency-stop poll of `run_motor_for_time` is the first
that reads true (polls `1 .. k-1` read false, and the loop condition still holds
at each of the first `k` polls, the elapsed counter being `10 * j` modulo
`2 ^ 32` at poll `j + 1`), the call returns, and what it issued is exactly:
the motor command, `k - 1` times (false read, 10 ms delay), the read that
observed the trip, a brake for GRIPPER, VERTICAL and AUX, and the status text
"EMERGENCY STOP\n". So exactly `k - 1` delays of 10 ms were issued, none of
them after the trip was observed, and all three motor outputs end braked. -/
theorem run_motor_for_time_trip_at_kth_poll (inp : Inputs) (id : MotorId)
    (dir : MotorDirection) (duty_percent time_ms k fuel : Nat) (w : World)
    (hk : 1 ≤ k) (hfuel : k ≤ fuel)
    (hpolled : ∀ j, j < k → (10 * j) % UINT32_MOD < time_ms)
    (hfalse : ∀ j, j < k - 1 → inp.estop (w.estopReads + j) = false)
    (htrue : inp.estop (w.estopReads + (k - 1)) = true) :
    ∃ w', run_motor_for_time inp fuel id dir duty_percent time_ms w = some w' ∧
      issued w w' = Event.motor_set id dir (min duty_percent 100) ::
        (pollTrace (k - 1) ++
          [Event.emergency_stop_signal true, Event.motor_brake MOTOR_GRIPPER,
           Event.motor_brake MOTOR_VERTICAL, Event.motor_brake MOTOR_AUX,
           Event.send_status "EMERGENCY STOP\n"]) ∧
      (issued w w').filter Event.isDelay = List.replicate (k - 1) (Event.delay_ms 10) ∧
      w'.hw.gripper = MotorOut.braked ∧ w'.hw.vertical = MotorOut.braked ∧
      w'.hw.aux = MotorOut.braked := by
  obtain ⟨m, rfl⟩ : ∃ m, k = m + 1 := ⟨k - 1, by omega⟩
  simp only [Nat.add_sub_cancel] at hfalse htrue ⊢
  have hrun := run_motor_for_time_trips inp id dir duty_percent time_ms m fuel w
    (by omega) hpolled hfalse htrue
  have hiss : issued w (tripped (polled m (hw_motor_set id dir (min duty_percent 100) w))) =
      Event.motor_set id dir (min duty_percent 100) :: (pollTrace m ++ tripTrace) := by
    apply issued_append
    simp [tripped, polled, hw_motor_set]
  refine ⟨_, hrun, hiss, ?_, rfl, rfl, rfl⟩
  rw [hiss]
  simp [List.filter_cons, Event.isDelay, tripTrace, pollTrace_filter_isDelay]

/-- C1, at a concrete input: the third poll is the first to read true, so two
10 ms delays are issued before the three brakes. -/
theorem run_motor_for_time_trip_at_kth_poll_witness :
    ∃ w', run_motor_for_time (estopOnlyAt 2) 3 MOTOR_VERTICAL MOTOR_DIR_FORWARD 70 100
        World.init = some w' ∧
      issued World.init w' = Event.motor_set MOTOR_VERTICAL MOTOR_DIR_FORWARD (min 70 100) ::
        (pollTrace (3 - 1) ++
          [Event.emergency_stop_signal true, Event.motor_brake MOTOR_GRIPPER,
           Event.motor_brake MOTOR_VERTICAL, Event.motor_brake MOTOR_AUX,
           Event.send_status "EMERGENCY STOP\n"]) ∧
      (issued World.init w').filter Event.isDelay = List.replicate (3 - 1) (Event.delay_ms 10) ∧
      w'.hw.gripper = MotorOut.braked ∧ w'.hw.vertical = MotorOut.braked ∧
      w'.hw.aux = MotorOut.braked :=
  run_motor_for_time_trip_at_kth_poll (estopOnlyAt 2) MOTOR_VERTICAL MOTOR_DIR_FORWARD
    70 100 3 3 World.init (by decide) (by decide) (by decide) (by decide) (by decide)

theorem stepTail_filter_isMotorSet (id : MotorId) (m : Nat) (trip : Bool) :
    (stepTail id m trip).filter Event.isMotorSet = [] := by
  cases trip <;>
    simp [stepTail, tripTrace, Event.isMotorSet, pollTrace_filter Event.isMotorSet rfl rfl]

theorem stepTail_filter_addresses (id : MotorId) (m : Nat) (trip : Bool) :
    (stepTail id m trip).filter (Event.addresses id) = [Event.motor_brake id] := by
  rw [stepTail, List.filter_append, pollTrace_filter (Event.addresses id) rfl rfl m]
  cases trip <;> cases id <;> rfl

theorem stepTail_has_brake (id : MotorId) (m : Nat) (trip : Bool) :
    ∃ e, e ∈ stepTail id m trip ∧ e.isBrake = true := by
  cases trip
  · exact ⟨Event.motor_brake id, by simp [stepTail], rfl⟩
  · exact ⟨Event.motor_brake MOTOR_GRIPPER, by simp [stepTail, tripTrace], rfl⟩

/-- C2. Whenever `run_motor_for_time` returns (tripped or not), the hardware
calls it issued begin with a `motor_set` addressed to `id` (carrying the
clamped duty), contain no other `motor_set`, contain at least one brake, and
the last call addressed to motor `id` is a brake. -/
theorem run_motor_for_time_one_set_then_brake (inp : Inputs) (fuel : Nat) (id : MotorId)
    (dir : MotorDirection) (duty_percent time_ms : Nat) (w w' : World)
    (h : run_motor_for_time inp fuel id dir duty_percent time_ms w = some w') :
    (issued w w').head? = some (Event.motor_set id dir (min duty_percent 100)) ∧
    (issued w w').filter Event.isMotorSet = [Event.motor_set id dir (min duty_percent 100)] ∧
    (∃ e, e ∈ issued w w' ∧ e.isBrake = true) ∧
    ((issued w w').filter (Event.addresses id)).getLast? = some (Event.motor_brake id) := by
  obtain ⟨m, trip, hiss⟩ := run_motor_for_time_issued inp fuel id dir duty_percent time_ms w w' h
  rw [hiss]
  refine ⟨rfl, ?_, ?_, ?_⟩
  · simp [List.filter_cons, Event.isMotorSet, stepTail_filter_isMotorSet]
  · obtain ⟨e, he, hb⟩ := stepTail_has_brake id m trip
    exact ⟨e, List.mem_cons_of_mem _ he, hb⟩
  · simp [List.filter_cons, Event.addresses, stepTail_filter_addresses]

/-- C2, at a concrete input on which the call trips at its second poll. -/
theorem run_motor_for_time_one_set_then_brake_witness :
    run_motor_for_time (estopOnlyAt 1) 5 MOTOR_AUX MOTOR_DIR_REVERSE 250 40 World.init =
      some (tripped (polled 1 (hw_motor_set MOTOR_AUX MOTOR_DIR_REVERSE 100 World.init))) ∧
    ((issued World.init (tripped (polled 1
        (hw_motor_set MOTOR_AUX MOTOR_DIR_REVERSE 100 World.init)))).head? =
      some (Event.motor_set MOTOR_AUX MOTOR_DIR_REVERSE (min 250 100)) ∧
    (issued World.init (tripped (polled 1
        (hw_motor_set MOTOR_AUX MOTOR_DIR_REVERSE 100 World.init)))).filter Event.isMotorSet =
      [Event.motor_set MOTOR_AUX MOTOR_DIR_REVERSE (min 250 100)] ∧
    (∃ e, e ∈ issued World.init (tripped (polled 1
        (hw_motor_set MOTOR_AUX MOTOR_DIR_REVERSE 100 World.init))) ∧ e.isBrake = true) ∧
    ((issued World.init (tripped (polled 1
        (hw_motor_set MOTOR_AUX MOTOR_DIR_REVERSE 100 World.init)))).filter
          (Event.addresses MOTOR_AUX)).getLast? = some (Event.motor_brake MOTOR_AUX)) :=
  ⟨by decide,
   run_motor_for_time_one_set_then_brake (estopOnlyAt 1) 5 MOTOR_AUX MOTOR_DIR_REVERSE 250 40
    World.init _ (by decide)⟩

/-- With no trip and a duration of at most 4294967290 ms the elapsed counter
never wraps: the call makes `ceil(time_ms / 10)` increments, brakes the
commanded motor and returns. -/
theorem run_motor_for_time_untripped (inp : Inputs) (id : MotorId) (dir : MotorDirection)
    (duty time_ms fuel : Nat) (w : World) (ht : time_ms ≤ 4294967290)
    (hfuel : (time_ms + 9) / 10 < fuel)
    (hfalse : ∀ i, i < (time_ms + 9) / 10 → inp.estop (w.estopReads + i) = false) :
    run_motor_for_time inp fuel id dir duty time_ms w =
      some (hw_motor_brake id (polled ((time_ms + 9) / 10)
        (hw_motor_set id dir (min duty 100) w))) := by
  unfold run_motor_for_time
  simp only [clamp_eq_min]
  obtain ⟨f, hf⟩ : ∃ f, fuel = (f + 1) + (time_ms + 9) / 10 :=
    ⟨fuel - (time_ms + 9) / 10 - 1, by omega⟩
  have hp := run_motor_loop_polls inp id time_ms (f + 1) ((time_ms + 9) / 10) 0
    (hw_motor_set id dir (min duty 100) w)
    (fun i hi => by
      have : (0 + 10 * i) % UINT32_MOD = 10 * i := by
        rw [Nat.zero_add]
        apply Nat.mod_eq_of_lt
        simp only [UINT32_MOD]
        omega
      rw [this]
      omega)
    (fun i hi => by simpa [hw_motor_set] using hfalse i hi)
  rw [Nat.zero_mod] at hp
  rw [hf, hp]
  apply run_motor_loop_done
  have : (0 + 10 * ((time_ms + 9) / 10)) % UINT32_MOD = 10 * ((time_ms + 9) / 10) := by
    rw [Nat.zero_add]
    apply Nat.mod_eq_of_lt
    simp only [UINT32_MOD]
    omega
  rw [this]
  omega

/-- With the emergency stop never asserted and `time_ms = UINT32_MAX`, the
elapsed counter stays even and below `2 ^ 32`, hence below `time_ms`: the loop
exhausts any amount of fuel. -/
theorem run_motor_loop_uint32_max_diverges (inp : Inputs) (id : MotorId)
    (hfalse : ∀ n, inp.estop n = false) :
    ∀ (fuel elapsed : Nat) (w : World), elapsed % 2 = 0 → elapsed < UINT32_MOD →
      run_motor_loop inp id 4294967295 fuel elapsed w = none := by
  intro fuel
  induction fuel with
  | zero => intro elapsed w _ _; rfl
  | succ fuel ih =>
    intro elapsed w heven hlt
    simp only [UINT32_MOD] at hlt
    rw [run_motor_loop_step inp id 4294967295 fuel elapsed w (by omega) (hfalse _)]
    apply ih
    · simp only [UINT32_MOD]; omega
    · exact Nat.mod_lt _ (by decide)

/-- C8 (failing input). For `time_ms = 4294967295` (`UINT32_MAX`) and an
emergency stop that never reads true, `run_motor_for_time` does not return:
`elapsed += step_ms` wraps modulo `2 ^ 32` before `elapsed < time_ms` can become
false, so the call runs out of every amount of fuel. -/
theorem run_motor_for_time_uint32_max_never_returns (fuel : Nat) :
    run_motor_for_time idleInputs fuel MOTOR_GRIPPER MOTOR_DIR_FORWARD 60 4294967295
      World.init = none := by
  unfold run_motor_for_time
  exact run_motor_loop_uint32_max_diverges idleInputs MOTOR_GRIPPER (fun _ => rfl) fuel 0 _
    (by decide) (by decide)

/-- Untripped completion on the durations where the elapsed counter cannot
wrap: for every duration of at most 4294967290 ms and no trip, the call returns
after exactly `ceil(time_ms / 10)` delays of 10 ms, the brake of the commanded
motor last. -/
theorem run_motor_for_time_untripped_trace (inp : Inputs) (id : MotorId)
    (dir : MotorDirection) (duty time_ms fuel : Nat) (w : World) (ht : time_ms ≤ 4294967290)
    (hfuel : (time_ms + 9) / 10 < fuel) (hfalse : ∀ n, inp.estop n = false) :
    ∃ w', run_motor_for_time inp fuel id dir duty time_ms w = some w' ∧
      issued w w' = Event.motor_set id dir (min duty 100) ::
        (pollTrace ((time_ms + 9) / 10) ++ [Event.motor_brake id]) ∧
      (issued w w').filter Event.isDelay =
        List.replicate ((time_ms + 9) / 10) (Event.delay_ms 10) := by
  have hiss : issued w (hw_motor_brake id (polled ((time_ms + 9) / 10)
      (hw_motor_set id dir (min duty 100) w))) = Event.motor_set id dir (min duty 100) ::
        (pollTrace ((time_ms + 9) / 10) ++ [Event.motor_brake id]) := by
    apply issued_append
    simp [polled, hw_motor_set, hw_motor_brake]
  refine ⟨_, run_motor_for_time_untripped inp id dir duty time_ms fuel w ht hfuel
    (fun i _ => hfalse _), hiss, ?_⟩
  rw [hiss]
  simp [List.filter_cons, Event.isDelay, pollTrace_filter_isDelay]

/-- Outcome of the loop for a duration that cannot wrap the elapsed counter:
a trip happens strictly before the duration has elapsed, a completion after
the least number of increments that covers it. -/
theorem run_motor_loop_outcome_bounded (inp : Inputs) (id : MotorId) (time_ms : Nat)
    (ht : time_ms + 10 ≤ UINT32_MOD) :
    ∀ (fuel elapsed : Nat) (w w' : World),
      run_motor_loop inp id time_ms fuel elapsed w = some w' →
      ∃ m, (∀ i, i < m → inp.estop (w.estopReads + i) = false) ∧
        ((inp.estop (w.estopReads + m) = true ∧ elapsed + 10 * m < time_ms ∧
            w' = tripped (polled m w)) ∨
          (time_ms ≤ elapsed + 10 * m ∧ (m = 0 ∨ elapsed + 10 * m < time_ms + 10) ∧
            w' = hw_motor_brake id (polled m w))) := by
  intro fuel
  induction fuel with
  | zero => intro elapsed w w' h; simp [run_motor_loop] at h
  | succ fuel ih =>
    intro elapsed w w' h
    by_cases hlt : elapsed < time_ms
    · cases he : inp.estop w.estopReads with
      | true =>
        rw [run_motor_loop_trip inp id time_ms fuel elapsed w hlt he] at h
        refine ⟨0, fun i hi => absurd hi (Nat.not_lt_zero i), Or.inl ⟨?_, ?_, ?_⟩⟩
        · simpa using he
        · simpa using hlt
        · rw [polled_zero]; exact (Option.some.inj h).symm
      | false =>
        rw [run_motor_loop_step inp id time_ms fuel elapsed w hlt he] at h
        have hmod : (elapsed + 10) % UINT32_MOD = elapsed + 10 := by
          apply Nat.mod_eq_of_lt
          omega
        rw [hmod] at h
        obtain ⟨m, hfalse, hout⟩ := ih _ _ _ h
        have hreads : (polled 1 w).estopReads = w.estopReads + 1 := rfl
        rw [polled_succ, hreads] at hout
        refine ⟨m + 1, ?_, ?_⟩
        · intro i hi
          cases i with
          | zero => simpa using he
          | succ i =>
            have := hfalse i (Nat.lt_of_succ_lt_succ hi)
            rwa [hreads, Nat.add_assoc, Nat.add_comm 1 i] at this
        · rcases hout with ⟨h1, h2, h3⟩ | ⟨h1, h2, h3⟩
          · refine Or.inl ⟨?_, by omega, h3⟩
            rwa [Nat.add_assoc, Nat.add_comm 1 m] at h1
          · exact Or.inr ⟨by omega, Or.inr (by omega), h3⟩
    · rw [run_motor_loop_done inp id time_ms fuel elapsed w hlt] at h
      refine ⟨0, fun i hi => absurd hi (Nat.not_lt_zero i), Or.inr ⟨by omega, Or.inl rfl, ?_⟩⟩
      rw [polled_zero]; exact (Option.some.inj h).symm

theorem stepEnd_estopReads (id : MotorId) (dir : MotorDirection) (duty : Nat) (r : Nat × Bool)
    (w : World) :
    (stepEnd id r.2 (polled r.1 (hw_motor_set id dir duty w))).estopReads =
      w.estopReads + stepReads r := by
  obtain ⟨m, trip⟩ := r
  cases trip <;>
    simp [stepEnd, stepReads, tripped, polled, hw_motor_set, hw_motor_brake, Nat.add_assoc]

/-- With a duration that cannot wrap the elapsed counter and enough fuel,
`run_motor_for_time` returns on every emergency-stop stream, with an outcome
`r` that the stream determines. -/
theorem run_motor_for_time_total (inp : Inputs) (fuel : Nat) (id : MotorId)
    (dir : MotorDirection) (duty time_ms : Nat) (w : World)
    (ht : time_ms + 10 ≤ UINT32_MOD) (hfuel : time_ms + 10 ≤ 10 * fuel) :
    ∃ r : Nat × Bool, run_motor_for_time inp fuel id dir duty time_ms w =
        some (stepEnd id r.2 (polled r.1 (hw_motor_set id dir (min duty 100) w))) ∧
      stepFacts inp time_ms w.estopReads r := by
  have hpos : 0 < fuel := by omega
  obtain ⟨w', hw'⟩ := run_motor_loop_returns inp id time_ms ht fuel 0
    (hw_motor_set id dir (min duty 100) w) hpos (by omega)
  have hrun : run_motor_for_time inp fuel id dir duty time_ms w = some w' := by
    unfold run_motor_for_time
    simp only [clamp_eq_min]
    exact hw'
  obtain ⟨m, hfalse, hout⟩ := run_motor_loop_outcome_bounded inp id time_ms ht _ _ _ _ hw'
  have hreads : (hw_motor_set id dir (min duty 100) w).estopReads = w.estopReads := rfl
  rw [hreads] at hfalse hout
  rcases hout with ⟨h1, h2, h3⟩ | ⟨h1, h2, h3⟩
  · refine ⟨(m, true), by rw [hrun, h3]; rfl, hfalse, fun _ => ⟨h1, by omega⟩, ?_⟩
    intro hc; cases hc
  · refine ⟨(m, false), by rw [hrun, h3]; rfl, hfalse, ?_, fun _ => ?_⟩
    · intro hc; cases hc
    · show m = (time_ms + 9) / 10
      omega

/-! ## The harvest cycle -/

/-- With enough fuel the harvest cycle returns on every emergency-stop stream,
in a world of the form `cycleWorld`, with step outcomes that the stream
determines. -/
theorem tool_run_single_harvest_cycle_total (inp : Inputs) (fuel : Nat) (w : World)
    (hfuel : 120 < fuel) :
    ∃ r1 r2 r3 r4 r5 : Nat × Bool,
      tool_run_single_harvest_cycle inp fuel w = some (cycleWorld r1 r2 r3 r4 r5 w) ∧
      stepFacts inp 800 w.estopReads r1 ∧
      stepFacts inp 900 (w.estopReads + stepReads r1) r2 ∧
      stepFacts inp 1200 (w.estopReads + stepReads r1 + stepReads r2) r3 ∧
      stepFacts inp 900 (w.estopReads + stepReads r1 + stepReads r2 + stepReads r3) r4 ∧
      stepFacts inp 800
        (w.estopReads + stepReads r1 + stepReads r2 + stepReads r3 + stepReads r4) r5 := by
  unfold tool_run_single_harvest_cycle
  obtain ⟨r1, h1, f1⟩ := run_motor_for_time_total inp fuel MOTOR_GRIPPER GRIPPER_DIR_OPEN
    TOOL_SPEED_GRIPPER TOOL_OPEN_GRIPPER_TIME_MS
    (hw_send_status "[Tool] Opening gripper\n" (hw_set_status_led true
      (hw_send_status "[Tool] Harvest cycle START\n" w)))
    (by decide) (by simp only [TOOL_OPEN_GRIPPER_TIME_MS]; omega)
  simp only [h1, Option.bind_eq_bind, Option.some_bind]
  have e1 := stepEnd_estopReads MOTOR_GRIPPER GRIPPER_DIR_OPEN (min TOOL_SPEED_GRIPPER 100) r1
    (hw_send_status "[Tool] Opening gripper\n" (hw_set_status_led true
      (hw_send_status "[Tool] Harvest cycle START\n" w)))
  generalize hw1 : stepEnd MOTOR_GRIPPER r1.2 _ = w1 at e1 ⊢
  obtain ⟨r2, h2, f2⟩ := run_motor_for_time_total inp fuel MOTOR_GRIPPER GRIPPER_DIR_CLOSE
    TOOL_SPEED_GRIPPER TOOL_CLOSE_GRIPPER_TIME_MS
    (hw_send_status "[Tool] Closing gripper\n" (hw_delay_ms TOOL_SETTLE_TIME_MS w1))
    (by decide) (by simp only [TOOL_CLOSE_GRIPPER_TIME_MS]; omega)
  simp only [h2, Option.some_bind]
  have e2 := stepEnd_estopReads MOTOR_GRIPPER GRIPPER_DIR_CLOSE (min TOOL_SPEED_GRIPPER 100) r2
    (hw_send_status "[Tool] Closing gripper\n" (hw_delay_ms TOOL_SETTLE_TIME_MS w1))
  generalize hw2 : stepEnd MOTOR_GRIPPER r2.2 _ = w2 at e2 ⊢
  obtain ⟨r3, h3, f3⟩ := run_motor_for_time_total inp fuel MOTOR_VERTICAL VERTICAL_DIR_DOWN
    TOOL_SPEED_VERTICAL TOOL_MOVE_DOWN_TIME_MS
    (hw_send_status "[Tool] Moving down for cut\n" (hw_delay_ms TOOL_SETTLE_TIME_MS w2))
    (by decide) (by simp only [TOOL_MOVE_DOWN_TIME_MS]; omega)
  simp only [h3, Option.some_bind]
  have e3 := stepEnd_estopReads MOTOR_VERTICAL VERTICAL_DIR_DOWN (min TOOL_SPEED_VERTICAL 100) r3
    (hw_send_status "[Tool] Moving down for cut\n" (hw_delay_ms TOOL_SETTLE_TIME_MS w2))
  generalize hw3 : stepEnd MOTOR_VERTICAL r3.2 _ = w3 at e3 ⊢
  obtain ⟨r4, h4, f4⟩ := run_motor_for_time_total inp fuel MOTOR_VERTICAL VERTICAL_DIR_UP
    TOOL_SPEED_VERTICAL TOOL_MOVE_UP_TIME_MS
    (hw_send_status "[Tool] Moving up / retract\n" (hw_delay_ms TOOL_SETTLE_TIME_MS w3))
    (by decide) (by simp only [TOOL_MOVE_UP_TIME_MS]; omega)
  simp only [h4, Option.some_bind]
  have e4 := stepEnd_estopReads MOTOR_VERTICAL VERTICAL_DIR_UP (min TOOL_SPEED_VERTICAL 100) r4
    (hw_send_status "[Tool] Moving up / retract\n" (hw_delay_ms TOOL_SETTLE_TIME_MS w3))
  generalize hw4 : stepEnd MOTOR_VERTICAL r4.2 _ = w4 at e4 ⊢
  obtain ⟨r5, h5, f5⟩ := run_motor_for_time_total inp fuel MOTOR_GRIPPER GRIPPER_DIR_OPEN
    TOOL_SPEED_GRIPPER TOOL_OPEN_GRIPPER_TIME_MS
    (hw_send_status "[Tool] Releasing gripper\n" (hw_delay_ms TOOL_SETTLE_TIME_MS w4))
    (by decide) (by simp only [TOOL_OPEN_GRIPPER_TIME_MS]; omega)
  simp only [h5, Option.some_bind]
  have q1 : (hw_send_status "[Tool] Closing gripper\n"
      (hw_delay_ms TOOL_SETTLE_TIME_MS w1)).estopReads = w.estopReads + stepReads r1 := e1
  have q2 : (hw_send_status "[Tool] Moving down for cut\n"
      (hw_delay_ms TOOL_SETTLE_TIME_MS w2)).estopReads =
        w.estopReads + stepReads r1 + stepReads r2 := by rw [← q1]; exact e2
  have q3 : (hw_send_status "[Tool] Moving up / retract\n"
      (hw_delay_ms TOOL_SETTLE_TIME_MS w3)).estopReads =
        w.estopReads + stepReads r1 + stepReads r2 + stepReads r3 := by rw [← q2]; exact e3
  have q4 : (hw_send_status "[Tool] Releasing gripper\n"
      (hw_delay_ms TOOL_SETTLE_TIME_MS w4)).estopReads =
        w.estopReads + stepReads r1 + stepReads r2 + stepReads r3 + stepReads r4 := by
    rw [← q3]; exact e4
  rw [q1] at f2
  rw [q2] at f3
  rw [q3] at f4
  rw [q4] at f5
  refine ⟨r1, r2, r3, r4, r5, ?_, f1, f2, f3, f4, f5⟩
  subst hw4 hw3 hw2 hw1
  rfl

theorem cycleWorld_trace (r1 r2 r3 r4 r5 : Nat × Bool) (w : World) :
    (cycleWorld r1 r2 r3 r4 r5 w).trace = w.trace ++ cycleTrace r1 r2 r3 r4 r5 := by
  simp only [cycleWorld, cycleTrace, hw_send_status, hw_set_status_led, hw_delay_ms,
    stepEnd_trace, List.append_assoc, List.cons_append, List.nil_append, List.singleton_append]

theorem cycleWorld_issued (r1 r2 r3 r4 r5 : Nat × Bool) (w : World) :
    issued w (cycleWorld r1 r2 r3 r4 r5 w) = cycleTrace r1 r2 r3 r4 r5 :=
  issued_append w _ _ (cycleWorld_trace r1 r2 r3 r4 r5 w)

/-- One untripped step: the call completes after `m = ceil(time_ms / 10)`
increments, and the emergency stop still reads false from there on. -/
theorem run_motor_for_time_quiet (inp : Inputs) (id : MotorId) (dir : MotorDirection)
    (duty time_ms m fuel : Nat) (w : World) (ht : time_ms ≤ 4294967290)
    (hm : (time_ms + 9) / 10 = m) (hfuel : m < fuel)
    (hq : ∀ i, inp.estop (w.estopReads + i) = false) :
    run_motor_for_time inp fuel id dir duty time_ms w =
        some (stepEnd id false (polled m (hw_motor_set id dir (min duty 100) w))) ∧
      ∀ i, inp.estop ((stepEnd id false (polled m
        (hw_motor_set id dir (min duty 100) w))).estopReads + i) = false := by
  subst hm
  refine ⟨?_, ?_⟩
  · rw [run_motor_for_time_untripped inp id dir duty time_ms fuel w ht hfuel (fun i _ => hq i)]
    rfl
  · intro i
    have := hq ((time_ms + 9) / 10 + i)
    simpa [stepEnd, polled, hw_motor_set, hw_motor_brake, Nat.add_assoc] using this

/-- With the emergency stop reading false from the current read on, the
harvest cycle completes all five steps untripped. -/
theorem tool_run_single_harvest_cycle_quiet (inp : Inputs) (fuel : Nat) (w : World)
    (hfuel : 120 < fuel) (hq : ∀ i, inp.estop (w.estopReads + i) = false) :
    tool_run_single_harvest_cycle inp fuel w =
      some (cycleWorld (80, false) (90, false) (120, false) (90, false) (80, false) w) := by
  unfold tool_run_single_harvest_cycle
  obtain ⟨h1, q1⟩ := run_motor_for_time_quiet inp MOTOR_GRIPPER GRIPPER_DIR_OPEN
    TOOL_SPEED_GRIPPER TOOL_OPEN_GRIPPER_TIME_MS 80 fuel
    (hw_send_status "[Tool] Opening gripper\n" (hw_set_status_led true
      (hw_send_status "[Tool] Harvest cycle START\n" w)))
    (by decide) (by decide) (by omega) hq
  simp only [h1, Option.bind_eq_bind, Option.some_bind]
  generalize hw1 : stepEnd MOTOR_GRIPPER false _ = w1 at q1 ⊢
  obtain ⟨h2, q2⟩ := run_motor_for_time_quiet inp MOTOR_GRIPPER GRIPPER_DIR_CLOSE
    TOOL_SPEED_GRIPPER TOOL_CLOSE_GRIPPER_TIME_MS 90 fuel
    (hw_send_status "[Tool] Closing gripper\n" (hw_delay_ms TOOL_SETTLE_TIME_MS w1))
    (by decide) (by decide) (by omega) q1
  simp only [h2, Option.some_bind]
  generalize hw2 : stepEnd MOTOR_GRIPPER false _ = w2 at q2 ⊢
  obtain ⟨h3, q3⟩ := run_motor_for_time_quiet inp MOTOR_VERTICAL VERTICAL_DIR_DOWN
    TOOL_SPEED_VERTICAL TOOL_MOVE_DOWN_TIME_MS 120 fuel
    (hw_send_status "[Tool] Moving down for cut\n" (hw_delay_ms TOOL_SETTLE_TIME_MS w2))
    (by decide) (by decide) (by omega) q2
  simp only [h3, Option.some_bind]
  generalize hw3 : stepEnd MOTOR_VERTICAL false _ = w3 at q3 ⊢
  obtain ⟨h4, q4⟩ := run_motor_for_time_quiet inp MOTOR_VERTICAL VERTICAL_DIR_UP
    TOOL_SPEED_VERTICAL TOOL_MOVE_UP_TIME_MS 90 fuel
    (hw_send_status "[Tool] Moving up / retract\n" (hw_delay_ms TOOL_SETTLE_TIME_MS w3))
    (by decide) (by decide) (by omega) q3
  simp only [h4, Option.some_bind]
  generalize hw4 : stepEnd MOTOR_VERTICAL false _ = w4 at q4 ⊢
  obtain ⟨h5, _⟩ := run_motor_for_time_quiet inp MOTOR_GRIPPER GRIPPER_DIR_OPEN
    TOOL_SPEED_GRIPPER TOOL_OPEN_GRIPPER_TIME_MS 80 fuel
    (hw_send_status "[Tool] Releasing gripper\n" (hw_delay_ms TOOL_SETTLE_TIME_MS w4))
    (by decide) (by decide) (by omega) q4
  simp only [h5, Option.some_bind]
  subst hw4 hw3 hw2 hw1
  rfl

theorem stepTail_filter_nil (p : Event → Bool) (id : MotorId) (m : Nat) (trip : Bool)
    (h1 : p (Event.emergency_stop_signal false) = false) (h2 : p (Event.delay_ms 10) = false)
    (h3 : p (Event.emergency_stop_signal true) = false)
    (h4 : ∀ i, p (Event.motor_brake i) = false)
    (h5 : p (Event.send_status "EMERGENCY STOP\n") = false) :
    (stepTail id m trip).filter p = [] := by
  rw [stepTail, List.filter_append, pollTrace_filter p h1 h2 m]
  cases trip <;> simp [tripTrace, h3, h4, h5]

theorem cycleTrace_filter_isMotorSet (r1 r2 r3 r4 r5 : Nat × Bool) :
    (cycleTrace r1 r2 r3 r4 r5).filter Event.isMotorSet = scriptedMotorSets := by
  simp [cycleTrace, List.filter_append, List.filter_cons, stepTail_filter_isMotorSet,
    Event.isMotorSet, scriptedMotorSets]

theorem cycleTrace_filter_isCycleStart (r1 r2 r3 r4 r5 : Nat × Bool) :
    (cycleTrace r1 r2 r3 r4 r5).filter Event.isCycleStart =
      [Event.send_status "[Tool] Harvest cycle START\n"] := by
  have hs : ∀ id m trip, (stepTail id m trip).filter Event.isCycleStart = [] :=
    fun id m trip => stepTail_filter_nil _ id m trip rfl rfl rfl (fun _ => rfl) (by decide)
  simp [cycleTrace, List.filter_append, List.filter_cons, hs, Event.isCycleStart]

theorem cycleTrace_filter_isSafetyStop (r1 r2 r3 r4 r5 : Nat × Bool) :
    (cycleTrace r1 r2 r3 r4 r5).filter Event.isSafetyStop = [] := by
  have hs : ∀ id m trip, (stepTail id m trip).filter Event.isSafetyStop = [] :=
    fun id m trip => stepTail_filter_nil _ id m trip rfl rfl rfl (fun _ => rfl) (by decide)
  simp [cycleTrace, List.filter_append, List.filter_cons, hs, Event.isSafetyStop]

theorem stepTail_untripped_filter_isOutputCommand (id : MotorId) (m : Nat) :
    (stepTail id m false).filter Event.isOutputCommand = [Event.motor_brake id] := by
  rw [stepTail, List.filter_append, pollTrace_filter Event.isOutputCommand rfl rfl m]
  rfl

/-- C3. When every emergency-stop reading is false, the harvest cycle returns
and issued exactly five `motor_set` commands: (GRIPPER, FORWARD, 60),
(GRIPPER, REVERSE, 60), (VERTICAL, FORWARD, 70), (VERTICAL, REVERSE, 70),
(GRIPPER, FORWARD, 60), in this order. Its output commands (motor and LED
commands) are, in order: LED on, then each `motor_set` followed by the brake of
the same motor, then LED off. -/
theorem harvest_cycle_untripped_commands (inp : Inputs) (fuel : Nat) (w : World)
    (hfalse : ∀ n, inp.estop n = false) (hfuel : 120 < fuel) :
    ∃ w', tool_run_single_harvest_cycle inp fuel w = some w' ∧
      (issued w w').filter Event.isMotorSet =
        [Event.motor_set MOTOR_GRIPPER MOTOR_DIR_FORWARD 60,
         Event.motor_set MOTOR_GRIPPER MOTOR_DIR_REVERSE 60,
         Event.motor_set MOTOR_VERTICAL MOTOR_DIR_FORWARD 70,
         Event.motor_set MOTOR_VERTICAL MOTOR_DIR_REVERSE 70,
         Event.motor_set MOTOR_GRIPPER MOTOR_DIR_FORWARD 60] ∧
      (issued w w').filter Event.isOutputCommand =
        [Event.set_status_led true,
         Event.motor_set MOTOR_GRIPPER MOTOR_DIR_FORWARD 60, Event.motor_brake MOTOR_GRIPPER,
         Event.motor_set MOTOR_GRIPPER MOTOR_DIR_REVERSE 60, Event.motor_brake MOTOR_GRIPPER,
         Event.motor_set MOTOR_VERTICAL MOTOR_DIR_FORWARD 70, Event.motor_brake MOTOR_VERTICAL,
         Event.motor_set MOTOR_VERTICAL MOTOR_DIR_REVERSE 70, Event.motor_brake MOTOR_VERTICAL,
         Event.motor_set MOTOR_GRIPPER MOTOR_DIR_FORWARD 60, Event.motor_brake MOTOR_GRIPPER,
         Event.set_status_led false] := by
  refine ⟨_, tool_run_single_harvest_cycle_quiet inp fuel w hfuel (fun i => hfalse _), ?_, ?_⟩
  · rw [cycleWorld_issued, cycleTrace_filter_isMotorSet]
    rfl
  · rw [cycleWorld_issued]
    simp [cycleTrace, List.filter_append, List.filter_cons,
      stepTail_untripped_filter_isOutputCommand, Event.isOutputCommand]

/-- C3, on the inputs that never assert either signal, from power-on. -/
theorem harvest_cycle_untripped_commands_witness :
    ∃ w', tool_run_single_harvest_cycle idleInputs 121 World.init = some w' ∧
      (issued World.init w').filter Event.isMotorSet =
        [Event.motor_set MOTOR_GRIPPER MOTOR_DIR_FORWARD 60,
         Event.motor_set MOTOR_GRIPPER MOTOR_DIR_REVERSE 60,
         Event.motor_set MOTOR_VERTICAL MOTOR_DIR_FORWARD 70,
         Event.motor_set MOTOR_VERTICAL MOTOR_DIR_REVERSE 70,
         Event.motor_set MOTOR_GRIPPER MOTOR_DIR_FORWARD 60] ∧
      (issued World.init w').filter Event.isOutputCommand =
        [Event.set_status_led true,
         Event.motor_set MOTOR_GRIPPER MOTOR_DIR_FORWARD 60, Event.motor_brake MOTOR_GRIPPER,
         Event.motor_set MOTOR_GRIPPER MOTOR_DIR_REVERSE 60, Event.motor_brake MOTOR_GRIPPER,
         Event.motor_set MOTOR_VERTICAL MOTOR_DIR_FORWARD 70, Event.motor_brake MOTOR_VERTICAL,
         Event.motor_set MOTOR_VERTICAL MOTOR_DIR_REVERSE 70, Event.motor_brake MOTOR_VERTICAL,
         Event.motor_set MOTOR_GRIPPER MOTOR_DIR_FORWARD 60, Event.motor_brake MOTOR_GRIPPER,
         Event.set_status_led false] :=
  harvest_cycle_untripped_commands idleInputs 121 World.init (fun _ => rfl) (by decide)

/-- C6 (counterexample). The emergency stop reads true at the first poll of
step 1 and false afterwards: step 1 takes the trip path, and after it the cycle
still issues the `motor_set` commands of steps 2 to 5. -/
theorem harvest_cycle_continues_after_trip :
    ∃ w' post, tool_run_single_harvest_cycle (estopOnlyAt 0) 121 World.init = some w' ∧
      issued World.init w' =
        [Event.send_status "[Tool] Harvest cycle START\n", Event.set_status_led true,
         Event.send_status "[Tool] Opening gripper\n",
         Event.motor_set MOTOR_GRIPPER MOTOR_DIR_FORWARD 60,
         Event.emergency_stop_signal true, Event.motor_brake MOTOR_GRIPPER,
         Event.motor_brake MOTOR_VERTICAL, Event.motor_brake MOTOR_AUX,
         Event.send_status "EMERGENCY STOP\n"] ++ post ∧
      post.filter Event.isMotorSet =
        [Event.motor_set MOTOR_GRIPPER MOTOR_DIR_REVERSE 60,
         Event.motor_set MOTOR_VERTICAL MOTOR_DIR_FORWARD 70,
         Event.motor_set MOTOR_VERTICAL MOTOR_DIR_REVERSE 70,
         Event.motor_set MOTOR_GRIPPER MOTOR_DIR_FORWARD 60] := by
  obtain ⟨r1, r2, r3, r4, r5, hrun, f1, _⟩ :=
    tool_run_single_harvest_cycle_total (estopOnlyAt 0) 121 World.init (by decide)
  obtain ⟨m, trip⟩ := r1
  obtain ⟨hfalse, _, hdone⟩ := f1
  have hm : m = 0 := by
    rcases Nat.eq_zero_or_pos m with h | h
    · exact h
    · exact absurd (hfalse 0 h) (by decide)
  subst hm
  have htrip : trip = true := by
    cases trip with
    | true => rfl
    | false => exact absurd (hdone rfl) (by decide)
  subst htrip
  refine ⟨_, [Event.delay_ms 150, Event.send_status "[Tool] Closing gripper\n",
      Event.motor_set MOTOR_GRIPPER MOTOR_DIR_REVERSE 60] ++
    stepTail MOTOR_GRIPPER r2.1 r2.2 ++
    [Event.delay_ms 150, Event.send_status "[Tool] Moving down for cut\n",
      Event.motor_set MOTOR_VERTICAL MOTOR_DIR_FORWARD 70] ++
    stepTail MOTOR_VERTICAL r3.1 r3.2 ++
    [Event.delay_ms 150, Event.send_status "[Tool] Moving up / retract\n",
      Event.motor_set MOTOR_VERTICAL MOTOR_DIR_REVERSE 70] ++
    stepTail MOTOR_VERTICAL r4.1 r4.2 ++
    [Event.delay_ms 150, Event.send_status "[Tool] Releasing gripper\n",
      Event.motor_set MOTOR_GRIPPER MOTOR_DIR_FORWARD 60] ++
    stepTail MOTOR_GRIPPER r5.1 r5.2 ++
    [Event.set_status_led false, Event.send_status "[Tool] Harvest cycle END\n"], hrun, ?_, ?_⟩
  · rw [cycleWorld_issued]
    simp [cycleTrace, stepTail, pollTrace, tripTrace]
  · simp [List.filter_append, List.filter_cons, stepTail_filter_isMotorSet, Event.isMotorSet]

/-! ## The Safety Controller -/

/-- C10. From every world (any motor outputs, any LED value),
`tool_emergency_stop` issues a brake to GRIPPER, VERTICAL and AUX, then sets the
status LED off, then emits one status text. On the hardware outputs it is
idempotent: two consecutive calls leave the outputs one call leaves, namely all
three motors braked and the LED off. -/
theorem tool_emergency_stop_idempotent (w : World) :
    issued w (tool_emergency_stop w) =
      [Event.motor_brake MOTOR_GRIPPER, Event.motor_brake MOTOR_VERTICAL,
       Event.motor_brake MOTOR_AUX, Event.set_status_led false,
       Event.send_status "[Tool] EMERGENCY STOP triggered\n"] ∧
    (tool_emergency_stop (tool_emergency_stop w)).hw = (tool_emergency_stop w).hw ∧
    (tool_emergency_stop w).hw =
      { gripper := MotorOut.braked, vertical := MotorOut.braked,
        aux := MotorOut.braked, led := false } := by
  refine ⟨?_, rfl, rfl⟩
  apply issued_append
  simp [tool_emergency_stop, hw_send_status, hw_set_status_led, hw_motor_brake]

/-! ## The main loop -/

theorem cyclesStarted_append (l1 l2 : List Event) :
    cyclesStarted (l1 ++ l2) = cyclesStarted l1 + cyclesStarted l2 := by
  simp [cyclesStarted, List.filter_append]

theorem safetyStops_append (l1 l2 : List Event) :
    safetyStops (l1 ++ l2) = safetyStops l1 + safetyStops l2 := by
  simp [safetyStops, List.filter_append]

theorem holdTrace_filter (p : Event → Bool)
    (h1 : p (Event.emergency_stop_signal true) = false) (h2 : p (Event.delay_ms 10) = false) :
    ∀ n, (holdTrace n).filter p = []
  | 0 => rfl
  | n + 1 => by simp [holdTrace, h1, h2, holdTrace_filter p h1 h2 n]

/-- The hold loop of `main` on `n` asserted reads followed by a deasserted one. -/
theorem estop_hold_loop_released (inp : Inputs) :
    ∀ (n fuel : Nat) (w : World), n < fuel →
      (∀ i, i < n → inp.estop (w.estopReads + i) = true) →
      inp.estop (w.estopReads + n) = false →
      estop_hold_loop inp fuel w = some (held n w) := by
  intro n
  induction n with
  | zero =>
    intro fuel w hfuel _ hrel
    obtain ⟨f, rfl⟩ : ∃ f, fuel = f + 1 := ⟨fuel - 1, by omega⟩
    have h0 : inp.estop w.estopReads = false := by simpa using hrel
    simp [estop_hold_loop, hw_emergency_stop_signal, h0, held, holdTrace]
  | succ n ih =>
    intro fuel w hfuel htrue hrel
    obtain ⟨f, rfl⟩ : ∃ f, fuel = f + 1 := ⟨fuel - 1, by omega⟩
    have h0 : inp.estop w.estopReads = true := by simpa using htrue 0 (Nat.succ_pos n)
    have hnext := ih f (hw_delay_ms 10 (hw_emergency_stop_signal inp w).2) (by omega)
      (fun i hi => by
        have := htrue (i + 1) (Nat.succ_lt_succ hi)
        simpa [hw_delay_ms, hw_emergency_stop_signal, Nat.add_assoc, Nat.add_comm 1 i]
          using this)
      (by simpa [hw_delay_ms, hw_emergency_stop_signal, Nat.add_assoc, Nat.add_comm 1 n]
          using hrel)
    simp only [estop_hold_loop, hw_emergency_stop_signal, h0, if_true]
    simp only [hw_emergency_stop_signal, h0] at hnext
    rw [hnext]
    simp [held, holdTrace, hw_delay_ms, Nat.add_assoc, Nat.add_comm 1 n]

/-- One loop iteration when the emergency stop never reads true: the start
sample is taken, and the cycle runs exactly on a rising edge. -/
theorem main_tick_quiet (inp : Inputs) (fuel : Nat) (prev : Bool) (w : World)
    (hfalse : ∀ n, inp.estop n = false) (hfuel : 120 < fuel) :
    ∃ w' tr, main_tick inp fuel prev w = some (inp.start w.startReads, w') ∧
      w'.startReads = w.startReads + 1 ∧ w'.trace = w.trace ++ tr ∧
      cyclesStarted tr = if (inp.start w.startReads && !prev) = true then 1 else 0 := by
  unfold main_tick
  simp only [hw_emergency_stop_signal, hfalse, Bool.false_eq_true, if_false,
    Option.bind_eq_bind, Option.some_bind, hw_start_signal]
  cases hedge : (inp.start w.startReads && !prev) with
  | false =>
    refine ⟨_, [Event.start_signal (inp.start w.startReads),
      Event.emergency_stop_signal false, Event.delay_ms 10], rfl, rfl, ?_, ?_⟩
    · simp [hw_delay_ms]
    · simp [cyclesStarted, Event.isCycleStart]
  | true =>
    simp only [if_true]
    rw [tool_run_single_harvest_cycle_quiet inp fuel _ hfuel (fun i => hfalse _)]
    refine ⟨_, [Event.start_signal (inp.start w.startReads),
      Event.emergency_stop_signal false] ++
      (cycleTrace (80, false) (90, false) (120, false) (90, false) (80, false) ++
        [Event.delay_ms 250, Event.delay_ms 10]), rfl, ?_, ?_, ?_⟩
    · rfl
    · simp [hw_delay_ms, cycleWorld_trace, TOOL_INTER_CYCLE_DELAY_MS]
    · rw [cyclesStarted_append, cyclesStarted_append]
      simp [cyclesStarted, cycleTrace_filter_isCycleStart, Event.isCycleStart]

theorem main_ticks_succ (inp : Inputs) (fuel : Nat) :
    ∀ (n : Nat) (prev : Bool) (w : World),
      main_ticks inp fuel (n + 1) prev w =
        (main_ticks inp fuel n prev w).bind (fun r => main_tick inp fuel r.1 r.2) := by
  intro n
  induction n with
  | zero =>
    intro prev w
    cases h : main_tick inp fuel prev w <;> simp [main_ticks, h]
  | succ n ih =>
    intro prev w
    cases h : main_tick inp fuel prev w with
    | none => simp [main_ticks, h]
    | some r =>
      have h1 : main_ticks inp fuel (n + 1 + 1) prev w = main_ticks inp fuel (n + 1) r.1 r.2 := by
        rw [main_ticks, h]
      have h2 : main_ticks inp fuel (n + 1) prev w = main_ticks inp fuel n r.1 r.2 := by
        rw [main_ticks, h]
      rw [h1, h2, ih]

theorem edgeCount_succ (s : Nat → Bool) (n : Nat) :
    edgeCount s (n + 1) = edgeCount s n + if (s n && !prevAt s n) = true then 1 else 0 := by
  unfold edgeCount
  rw [List.range_succ, List.filter_append, List.length_append]
  cases h : (s n && !prevAt s n) <;> simp [List.filter_cons, h]

/-- The first `n` loop iterations when the emergency stop never reads true:
they return, and ran as many cycles as the start samples had rising edges. -/
theorem main_ticks_quiet (inp : Inputs) (fuel : Nat) (w0 : World)
    (hfalse : ∀ n, inp.estop n = false) (hfuel : 120 < fuel) (h0 : w0.startReads = 0) :
    ∀ n, ∃ w' tr, main_ticks inp fuel n false w0 = some (prevAt inp.start n, w') ∧
      w'.startReads = n ∧ w'.trace = w0.trace ++ tr ∧
      cyclesStarted tr = edgeCount inp.start n := by
  intro n
  induction n with
  | zero => exact ⟨w0, [], rfl, h0, by simp, rfl⟩
  | succ n ih =>
    obtain ⟨w1, tr1, hrun, hreads, htrace, hcount⟩ := ih
    obtain ⟨w2, tr2, htick, hreads2, htrace2, hcount2⟩ :=
      main_tick_quiet inp fuel (prevAt inp.start n) w1 hfalse hfuel
    rw [hreads] at htick hreads2 hcount2
    refine ⟨w2, tr1 ++ tr2, ?_, hreads2, ?_, ?_⟩
    · rw [main_ticks_succ, hrun]
      exact htick
    · rw [htrace2, htrace, List.append_assoc]
    · rw [cyclesStarted_append, hcount, hcount2, edgeCount_succ]

theorem edgeCount_held (s : Nat → Bool) :
    ∀ n, (∀ i, i < n + 1 → s i = true) → edgeCount s (n + 1) = 1 := by
  intro n
  induction n with
  | zero =>
    intro h
    simp [edgeCount, List.range_succ, List.filter_cons, prevAt, h 0 (Nat.succ_pos 0)]
  | succ n ih =>
    intro h
    rw [edgeCount_succ, ih (fun i hi => h i (Nat.lt_succ_of_lt hi))]
    simp [prevAt, h n (by omega)]

theorem edge_if_eq (s : Nat → Bool) (i : Nat) :
    (if (s i && !prevAt s i) = true then 1 else 0) =
      if s i = true ∧ (i = 0 ∨ s (i - 1) = false) then 1 else 0 := by
  cases i with
  | zero => cases h : s 0 <;> simp [prevAt, h]
  | succ i => cases h : s (i + 1) <;> cases h' : s i <;> simp [prevAt, h, h']

theorem main_quiet (inp : Inputs) (fuel : Nat) (hfalse : ∀ n, inp.estop n = false)
    (hfuel : 120 < fuel) (n : Nat) :
    ∃ w', main inp fuel n World.init = some (prevAt inp.start n, w') ∧ w'.startReads = n ∧
      cyclesStarted w'.trace = edgeCount inp.start n := by
  obtain ⟨w', tr, hrun, hreads, htrace, hcount⟩ := main_ticks_quiet inp fuel
    (hw_send_status "[Tool] Vegetable harvester tool controller ready\n" World.init)
    hfalse hfuel rfl n
  refine ⟨w', hrun, hreads, ?_⟩
  rw [htrace, cyclesStarted_append, hcount]
  simp [cyclesStarted, hw_send_status, World.init, Event.isCycleStart]

/-- C4. With the emergency stop never reading true, from the initial state of
`main` (previous start false), for every stream of start samples, sample `i`
(counted from 0) being the one taken on tick `i + 1`:
* the main loop reaches the end of every tick, and tick `i + 1` invokes the
  harvest cycle exactly when sample `i` is true and it is the first sample or
  sample `i - 1` is false;
* if the first `n ≥ 1` samples are all true, exactly one cycle has been invoked
  after `n` ticks;
* on the samples false, true, true, false exactly one cycle has been invoked
  after four ticks, and it was invoked on tick 2. -/
theorem main_loop_rising_edge (inp : Inputs) (fuel : Nat)
    (hfalse : ∀ n, inp.estop n = false) (hfuel : 120 < fuel) :
    (∀ i, ∃ r r', main inp fuel i World.init = some r ∧
        main inp fuel (i + 1) World.init = some r' ∧
        cyclesStarted (issued r.2 r'.2) =
          if inp.start i = true ∧ (i = 0 ∨ inp.start (i - 1) = false) then 1 else 0) ∧
    (∀ n, 1 ≤ n → (∀ i, i < n → inp.start i = true) →
      ∃ r, main inp fuel n World.init = some r ∧ cyclesStarted r.2.trace = 1) ∧
    (inp.start 0 = false → inp.start 1 = true → inp.start 2 = true → inp.start 3 = false →
      ∃ r1 r2 r4, main inp fuel 1 World.init = some r1 ∧ main inp fuel 2 World.init = some r2 ∧
        main inp fuel 4 World.init = some r4 ∧
        cyclesStarted (issued r1.2 r2.2) = 1 ∧ cyclesStarted r4.2.trace = 1) := by
  have htick : ∀ i, ∃ r r', main inp fuel i World.init = some r ∧
      main inp fuel (i + 1) World.init = some r' ∧
      cyclesStarted (issued r.2 r'.2) =
        if inp.start i = true ∧ (i = 0 ∨ inp.start (i - 1) = false) then 1 else 0 := by
    intro i
    obtain ⟨w1, hrun, hreads, _⟩ := main_quiet inp fuel hfalse hfuel i
    obtain ⟨w2, tr, ht, _, htrace, hcount⟩ :=
      main_tick_quiet inp fuel (prevAt inp.start i) w1 hfalse hfuel
    rw [hreads] at ht hcount
    refine ⟨_, (inp.start i, w2), hrun, ?_, ?_⟩
    · unfold main at hrun ⊢
      rw [main_ticks_succ, hrun]
      exact ht
    · rw [issued_append w1 w2 tr htrace, hcount, edge_if_eq]
  refine ⟨htick, ?_, ?_⟩
  · intro n hn hheld
    obtain ⟨m, rfl⟩ : ∃ m, n = m + 1 := ⟨n - 1, by omega⟩
    obtain ⟨w', hrun, _, hcount⟩ := main_quiet inp fuel hfalse hfuel (m + 1)
    exact ⟨_, hrun, by rw [hcount, edgeCount_held inp.start m hheld]⟩
  · intro h0 h1 h2 h3
    obtain ⟨r1, r2, hr1, hr2, hc⟩ := htick 1
    obtain ⟨w4, hr4, _, hcount⟩ := main_quiet inp fuel hfalse hfuel 4
    refine ⟨r1, r2, _, hr1, hr2, hr4, ?_, ?_⟩
    · rw [hc]
      simp [h0, h1]
    · rw [hcount, edgeCount_succ, edgeCount_succ, edgeCount_succ, edgeCount_succ]
      simp [edgeCount, prevAt, h0, h1, h2, h3]

/-- C4, on the start samples false, true, true, false: one cycle, on tick 2. -/
theorem main_loop_rising_edge_witness :
    ∃ r1 r2 r4, main startPulseInputs 121 1 World.init = some r1 ∧
      main startPulseInputs 121 2 World.init = some r2 ∧
      main startPulseInputs 121 4 World.init = some r4 ∧
      cyclesStarted (issued r1.2 r2.2) = 1 ∧ cyclesStarted r4.2.trace = 1 :=
  (main_loop_rising_edge startPulseInputs 121 (fun _ => rfl) (by decide)).2.2
    (by decide) (by decide) (by decide) (by decide)

/-- One loop iteration whose emergency-stop sample is asserted, followed by
`k` more asserted reads and then a deasserted one: the Safety Controller runs
once, the loop holds, and after the release the start sample taken at the
beginning of the iteration is still tested for a rising edge. -/
theorem main_tick_estop (inp : Inputs) (fuel : Nat) (prev : Bool) (w : World) (k : Nat)
    (hfuel : 120 < fuel) (hk : k < fuel) (h0 : inp.estop w.estopReads = true)
    (htrue : ∀ i, i < k → inp.estop (w.estopReads + 1 + i) = true)
    (hrel : inp.estop (w.estopReads + 1 + k) = false) :
    ∃ w' rest, main_tick inp fuel prev w = some (inp.start w.startReads, w') ∧
      issued w w' = Event.start_signal (inp.start w.startReads) ::
        Event.emergency_stop_signal true ::
          (emergencyStopTrace ++ holdTrace k ++ [Event.emergency_stop_signal false] ++ rest) ∧
      ((inp.start w.startReads && !prev) = false → rest = [Event.delay_ms 10]) ∧
      ((inp.start w.startReads && !prev) = true → ∃ r1 r2 r3 r4 r5,
        rest = cycleTrace r1 r2 r3 r4 r5 ++ [Event.delay_ms 250, Event.delay_ms 10]) := by
  have hhold := estop_hold_loop_released inp k fuel
    (tool_emergency_stop (hw_emergency_stop_signal inp (hw_start_signal inp w).2).2) hk
    htrue hrel
  unfold main_tick
  simp only [hw_emergency_stop_signal, hw_start_signal, h0, if_true,
    Option.bind_eq_bind] at hhold ⊢
  rw [hhold, Option.some_bind]
  cases hedge : (inp.start w.startReads && !prev) with
  | false =>
    refine ⟨_, [Event.delay_ms 10], rfl, ?_, fun _ => rfl, fun hc => by cases hc⟩
    apply issued_append
    simp [held, tool_emergency_stop, hw_delay_ms, hw_send_status, hw_set_status_led,
      hw_motor_brake, emergencyStopTrace]
  | true =>
    simp only [if_true]
    obtain ⟨r1, r2, r3, r4, r5, hrun, _⟩ := tool_run_single_harvest_cycle_total inp fuel
      (held k (tool_emergency_stop
        { hw := w.hw, startReads := w.startReads + 1, estopReads := w.estopReads + 1,
          trace := w.trace ++ [Event.start_signal (inp.start w.startReads)] ++
            [Event.emergency_stop_signal true] })) hfuel
    rw [hrun]
    refine ⟨_, cycleTrace r1 r2 r3 r4 r5 ++ [Event.delay_ms 250, Event.delay_ms 10], rfl, ?_,
      (fun hc => by cases hc), fun _ => ⟨r1, r2, r3, r4, r5, rfl⟩⟩
    apply issued_append
    simp [cycleWorld_trace, held, tool_emergency_stop, hw_delay_ms, hw_send_status,
      hw_set_status_led, hw_motor_brake, emergencyStopTrace, TOOL_INTER_CYCLE_DELAY_MS]

theorem hold_part_cyclesStarted (s : Bool) (k : Nat) :
    cyclesStarted (Event.start_signal s :: Event.emergency_stop_signal true ::
      (emergencyStopTrace ++ holdTrace k ++ [Event.emergency_stop_signal false])) = 0 := by
  simp [cyclesStarted, List.filter_cons, List.filter_append, emergencyStopTrace,
    Event.isCycleStart, holdTrace_filter Event.isCycleStart rfl rfl]

theorem hold_part_safetyStops (s : Bool) (k : Nat) :
    safetyStops (Event.start_signal s :: Event.emergency_stop_signal true ::
      (emergencyStopTrace ++ holdTrace k ++ [Event.emergency_stop_signal false])) = 1 := by
  simp [safetyStops, List.filter_cons, List.filter_append, emergencyStopTrace,
    Event.isSafetyStop, holdTrace_filter Event.isSafetyStop rfl rfl]

theorem hold_part_split (s : Bool) (k : Nat) (rest : List Event) :
    Event.start_signal s :: Event.emergency_stop_signal true ::
      (emergencyStopTrace ++ holdTrace k ++ [Event.emergency_stop_signal false] ++ rest) =
    (Event.start_signal s :: Event.emergency_stop_signal true ::
      (emergencyStopTrace ++ holdTrace k ++ [Event.emergency_stop_signal false])) ++ rest := by
  simp

theorem holdTrace_mem : ∀ (n : Nat) (e : Event), e ∈ holdTrace n →
    e = Event.emergency_stop_signal true ∨ e = Event.delay_ms 10
  | 0, e, h => by simp [holdTrace] at h
  | n + 1, e, h => by
    simp only [holdTrace, List.mem_cons] at h
    rcases h with h | h | h
    · exact Or.inl h
    · exact Or.inr h
    · exact holdTrace_mem n e h

/-- C5 (counterexample). On the first tick the start signal reads true
(previous start false) and the emergency stop is sampled asserted; it is
released at the next read. The harvest cycle is invoked on that very tick,
right after the hold. -/
theorem main_tick_estop_then_cycle :
    (estopOnlyAt 0).estop World.init.estopReads = true ∧
    (estopOnlyAt 0).start World.init.startReads = true ∧
    ∃ w', main_tick (estopOnlyAt 0) 121 false World.init = some (true, w') ∧
      cyclesStarted (issued World.init w') = 1 := by
  refine ⟨rfl, rfl, ?_⟩
  obtain ⟨w', rest, hrun, hiss, _, hcycle⟩ := main_tick_estop (estopOnlyAt 0) 121 false
    World.init 0 (by decide) (by decide) (by decide) (by decide) (by decide)
  obtain ⟨r1, r2, r3, r4, r5, hrest⟩ := hcycle rfl
  refine ⟨w', hrun, ?_⟩
  rw [hiss, hold_part_split, cyclesStarted_append, hold_part_cyclesStarted, hrest,
    cyclesStarted_append]
  simp [cyclesStarted, cycleTrace_filter_isCycleStart, Event.isCycleStart]

/-- C5 (amended). On a tick whose emergency-stop sample is asserted (and is
released after `k` further asserted reads), the loop invokes the Safety
Controller and holds; no harvest cycle is invoked before the release. After the
release, on the same tick, the start value sampled at its beginning is used as
usual: the harvest cycle is invoked exactly when start is true and previous
start is false. -/
theorem main_tick_estop_start_sample (inp : Inputs) (fuel : Nat) (prev : Bool) (w : World)
    (k : Nat) (hfuel : 120 < fuel) (hk : k < fuel) (h0 : inp.estop w.estopReads = true)
    (htrue : ∀ i, i < k → inp.estop (w.estopReads + 1 + i) = true)
    (hrel : inp.estop (w.estopReads + 1 + k) = false) :
    ∃ w' rest, main_tick inp fuel prev w = some (inp.start w.startReads, w') ∧
      issued w w' = Event.start_signal (inp.start w.startReads) ::
        Event.emergency_stop_signal true ::
          (emergencyStopTrace ++ holdTrace k ++ [Event.emergency_stop_signal false] ++ rest) ∧
      cyclesStarted (Event.start_signal (inp.start w.startReads) ::
        Event.emergency_stop_signal true ::
          (emergencyStopTrace ++ holdTrace k ++ [Event.emergency_stop_signal false])) = 0 ∧
      cyclesStarted rest = if inp.start w.startReads = true ∧ prev = false then 1 else 0 := by
  obtain ⟨w', rest, hrun, hiss, hidle, hcycle⟩ :=
    main_tick_estop inp fuel prev w k hfuel hk h0 htrue hrel
  refine ⟨w', rest, hrun, hiss, hold_part_cyclesStarted _ k, ?_⟩
  have hif : ∀ a b : Bool, (if a = true ∧ b = false then 1 else 0) =
      if (a && !b) = true then 1 else 0 := by
    intro a b
    cases a <;> cases b <;> rfl
  rw [hif]
  cases hedge : (inp.start w.startReads && !prev) with
  | false =>
    rw [hidle hedge]
    simp [cyclesStarted, Event.isCycleStart]
  | true =>
    obtain ⟨r1, r2, r3, r4, r5, hrest⟩ := hcycle hedge
    rw [hrest, cyclesStarted_append]
    simp [cyclesStarted, cycleTrace_filter_isCycleStart, Event.isCycleStart]

/-- C5 (amended), on a tick with start false: the hold is followed by no cycle. -/
theorem main_tick_estop_start_sample_witness :
    ∃ w' rest, main_tick estopFiveInputs 121 false World.init =
        some (estopFiveInputs.start World.init.startReads, w') ∧
      issued World.init w' = Event.start_signal (estopFiveInputs.start World.init.startReads) ::
        Event.emergency_stop_signal true ::
          (emergencyStopTrace ++ holdTrace 4 ++ [Event.emergency_stop_signal false] ++ rest) ∧
      cyclesStarted (Event.start_signal (estopFiveInputs.start World.init.startReads) ::
        Event.emergency_stop_signal true ::
          (emergencyStopTrace ++ holdTrace 4 ++ [Event.emergency_stop_signal false])) = 0 ∧
      cyclesStarted rest =
        if estopFiveInputs.start World.init.startReads = true ∧ false = false then 1 else 0 :=
  main_tick_estop_start_sample estopFiveInputs 121 false World.init 4 (by decide) (by decide)
    (by decide) (by decide) (by decide)

/-- C9. For every `n ≥ 1`: if the emergency-stop reading of a main-loop tick is
true, is followed by `n - 1` further true readings and then by a false one,
the tick invokes `tool_emergency_stop` exactly once, right after the first true
reading; then, until the false reading, it issues nothing but emergency-stop
reads and 10 ms delays (`n - 1` of each); no `motor_set` is issued before the
false reading; after it the loop goes on (`rest`) and the tick returns. -/
theorem main_tick_estop_hold (inp : Inputs) (fuel : Nat) (prev : Bool) (w : World) (n : Nat)
    (hn : 1 ≤ n) (hfuel : 120 < fuel) (hnf : n ≤ fuel)
    (htrue : ∀ i, i < n → inp.estop (w.estopReads + i) = true)
    (hrel : inp.estop (w.estopReads + n) = false) :
    ∃ w' rest, main_tick inp fuel prev w = some (inp.start w.startReads, w') ∧
      issued w w' = Event.start_signal (inp.start w.startReads) ::
        Event.emergency_stop_signal true ::
          (emergencyStopTrace ++ holdTrace (n - 1) ++
            [Event.emergency_stop_signal false] ++ rest) ∧
      safetyStops (issued w w') = 1 ∧
      (∀ e, e ∈ holdTrace (n - 1) →
        e = Event.emergency_stop_signal true ∨ e = Event.delay_ms 10) ∧
      (Event.start_signal (inp.start w.startReads) :: Event.emergency_stop_signal true ::
        (emergencyStopTrace ++ holdTrace (n - 1))).filter Event.isMotorSet = [] := by
  obtain ⟨k, rfl⟩ : ∃ k, n = k + 1 := ⟨n - 1, by omega⟩
  simp only [Nat.add_sub_cancel]
  obtain ⟨w', rest, hrun, hiss, hidle, hcycle⟩ := main_tick_estop inp fuel prev w k hfuel
    (by omega) (by simpa using htrue 0 (Nat.succ_pos k))
    (fun i hi => by
      have := htrue (i + 1) (Nat.succ_lt_succ hi)
      rwa [← Nat.add_assoc, Nat.add_right_comm] at this)
    (by rwa [← Nat.add_assoc, Nat.add_right_comm] at hrel)
  refine ⟨w', rest, hrun, hiss, ?_, holdTrace_mem k, ?_⟩
  · rw [hiss, hold_part_split, safetyStops_append, hold_part_safetyStops]
    cases hedge : (inp.start w.startReads && !prev) with
    | false => rw [hidle hedge]; rfl
    | true =>
      obtain ⟨r1, r2, r3, r4, r5, hrest⟩ := hcycle hedge
      rw [hrest, safetyStops_append]
      simp [safetyStops, cycleTrace_filter_isSafetyStop, Event.isSafetyStop]
  · simp [List.filter_cons, List.filter_append, emergencyStopTrace, Event.isMotorSet,
      holdTrace_filter Event.isMotorSet rfl rfl]

/-- C9, with `n = 5`: five true readings, then a false one (the sixth). -/
theorem main_tick_estop_hold_witness :
    ∃ w' rest, main_tick estopFiveInputs 121 false World.init =
        some (estopFiveInputs.start World.init.startReads, w') ∧
      issued World.init w' = Event.start_signal (estopFiveInputs.start World.init.startReads) ::
        Event.emergency_stop_signal true ::
          (emergencyStopTrace ++ holdTrace (5 - 1) ++
            [Event.emergency_stop_signal false] ++ rest) ∧
      safetyStops (issued World.init w') = 1 ∧
      (∀ e, e ∈ holdTrace (5 - 1) →
        e = Event.emergency_stop_signal true ∨ e = Event.delay_ms 10) ∧
      (Event.start_signal (estopFiveInputs.start World.init.startReads) ::
        Event.emergency_stop_signal true ::
        (emergencyStopTrace ++ holdTrace (5 - 1))).filter Event.isMotorSet = [] :=
  main_tick_estop_hold estopFiveInputs 121 false World.init 5 (by decide) (by decide)
    (by decide) (by decide) (by decide)

/-! ## The trip path and the Safety Controller -/

/-- C11 (counterexample). With the status LED on (as it is during a cycle), a
call that trips at its first poll leaves the LED on, whereas
`tool_emergency_stop` from the same state leaves it off: the outputs differ. -/
theorem trip_path_leaves_led_on :
    (run_motor_for_time (estopOnlyAt 0) 1 MOTOR_GRIPPER MOTOR_DIR_FORWARD 60 800
        ledOnWorld).map (fun w => w.hw) = some (brakedHw true) ∧
    (tool_emergency_stop ledOnWorld).hw = brakedHw false := by
  decide

/-- C11 (amended). When the `(m + 1)`-th poll of `run_motor_for_time` is the
first to read true, the call returns, and the motor outputs it leaves are those
`tool_emergency_stop` leaves from the same prior state: all three braked. The
status LED is left as it was before the call (the trip path issues no LED
command), whereas `tool_emergency_stop` leaves it off; so the outputs of the
two agree exactly when the LED was already off. -/
theorem run_motor_for_time_trip_outputs (inp : Inputs) (id : MotorId) (dir : MotorDirection)
    (duty_percent time_ms m fuel : Nat) (w : World) (hfuel : m < fuel)
    (hpolled : ∀ j, j < m + 1 → (10 * j) % UINT32_MOD < time_ms)
    (hfalse : ∀ j, j < m → inp.estop (w.estopReads + j) = false)
    (htrue : inp.estop (w.estopReads + m) = true) :
    ∃ w', run_motor_for_time inp fuel id dir duty_percent time_ms w = some w' ∧
      w'.hw.gripper = (tool_emergency_stop w).hw.gripper ∧
      w'.hw.vertical = (tool_emergency_stop w).hw.vertical ∧
      w'.hw.aux = (tool_emergency_stop w).hw.aux ∧
      w'.hw.allBraked ∧
      w'.hw.led = w.hw.led ∧ (tool_emergency_stop w).hw.led = false ∧
      (issued w w').filter Event.isLed = [] ∧
      (w'.hw = (tool_emergency_stop w).hw ↔ w.hw.led = false) := by
  have hiss : issued w (tripped (polled m (hw_motor_set id dir (min duty_percent 100) w))) =
      Event.motor_set id dir (min duty_percent 100) :: stepTail id m true := by
    apply issued_append
    rw [← stepEnd_trace]
    rfl
  have ht : (tripped (polled m (hw_motor_set id dir (min duty_percent 100) w))).hw =
      brakedHw w.hw.led := by
    cases id <;> rfl
  have he : (tool_emergency_stop w).hw = brakedHw false := rfl
  refine ⟨_, run_motor_for_time_trips inp id dir duty_percent time_ms m fuel w hfuel hpolled
    hfalse htrue, ?_⟩
  rw [ht, he, hiss]
  refine ⟨rfl, rfl, rfl, ⟨rfl, rfl, rfl⟩, rfl, rfl, ?_, ?_⟩
  · rw [List.filter_cons,
      stepTail_filter_nil Event.isLed id m true rfl rfl rfl (fun _ => rfl) rfl]
    rfl
  · constructor
    · intro h
      exact congrArg HwState.led h
    · intro h
      rw [h]

/-- C11 (amended), on a trip at the third poll from power-on (LED off). -/
theorem run_motor_for_time_trip_outputs_witness :
    ∃ w', run_motor_for_time (estopOnlyAt 2) 3 MOTOR_VERTICAL MOTOR_DIR_REVERSE 70 900
        World.init = some w' ∧
      w'.hw.gripper = (tool_emergency_stop World.init).hw.gripper ∧
      w'.hw.vertical = (tool_emergency_stop World.init).hw.vertical ∧
      w'.hw.aux = (tool_emergency_stop World.init).hw.aux ∧
      w'.hw.allBraked ∧
      w'.hw.led = World.init.hw.led ∧ (tool_emergency_stop World.init).hw.led = false ∧
      (issued World.init w').filter Event.isLed = [] ∧
      (w'.hw = (tool_emergency_stop World.init).hw ↔ World.init.hw.led = false) :=
  run_motor_for_time_trip_outputs (estopOnlyAt 2) MOTOR_VERTICAL MOTOR_DIR_REVERSE 70 900 2 3
    World.init (by decide) (by decide) (by decide) (by decide)

/-! ## Delays and LED commands of the harvest cycle -/

theorem totalDelay_append (l1 l2 : List Event) :
    totalDelay (l1 ++ l2) = totalDelay l1 + totalDelay l2 := by
  simp [totalDelay]

theorem totalDelay_pollTrace : ∀ n, totalDelay (pollTrace n) = 10 * n
  | 0 => rfl
  | n + 1 => by
    have ih := totalDelay_pollTrace n
    simp only [totalDelay] at ih ⊢
    simp only [pollTrace, List.map_cons, List.sum_cons, Event.delayOf, ih]
    omega

theorem stepTail_untripped_filter_isDelay (id : MotorId) (m : Nat) :
    (stepTail id m false).filter Event.isDelay = List.replicate m (Event.delay_ms 10) := by
  rw [stepTail, List.filter_append, pollTrace_filter_isDelay]
  simp [Event.isDelay]

theorem totalDelay_stepTail_untripped (id : MotorId) (m : Nat) :
    totalDelay (stepTail id m false) = 10 * m := by
  rw [stepTail, totalDelay_append, totalDelay_pollTrace]
  rfl

/-- C12. When every emergency-stop reading is false, the harvest cycle returns
and its trace is, in full: the START text, LED on, then for each step its
status text, its `motor_set`, its untripped increments (80, 90, 120, 90, 80 of
them) and the brake of its motor; the brake of each of steps 1 to 4 is
immediately followed by a 150 ms delay, the brake of step 5 by LED off and the
END text, with no delay. The delays sum to 5200 ms. -/
theorem harvest_cycle_untripped_delays (inp : Inputs) (fuel : Nat) (w : World)
    (hfalse : ∀ n, inp.estop n = false) (hfuel : 120 < fuel) :
    ∃ w', tool_run_single_harvest_cycle inp fuel w = some w' ∧
      issued w w' =
        [Event.send_status "[Tool] Harvest cycle START\n", Event.set_status_led true,
         Event.send_status "[Tool] Opening gripper\n",
         Event.motor_set MOTOR_GRIPPER MOTOR_DIR_FORWARD 60] ++ pollTrace 80 ++
        [Event.motor_brake MOTOR_GRIPPER, Event.delay_ms 150,
         Event.send_status "[Tool] Closing gripper\n",
         Event.motor_set MOTOR_GRIPPER MOTOR_DIR_REVERSE 60] ++ pollTrace 90 ++
        [Event.motor_brake MOTOR_GRIPPER, Event.delay_ms 150,
         Event.send_status "[Tool] Moving down for cut\n",
         Event.motor_set MOTOR_VERTICAL MOTOR_DIR_FORWARD 70] ++ pollTrace 120 ++
        [Event.motor_brake MOTOR_VERTICAL, Event.delay_ms 150,
         Event.send_status "[Tool] Moving up / retract\n",
         Event.motor_set MOTOR_VERTICAL MOTOR_DIR_REVERSE 70] ++ pollTrace 90 ++
        [Event.motor_brake MOTOR_VERTICAL, Event.delay_ms 150,
         Event.send_status "[Tool] Releasing gripper\n",
         Event.motor_set MOTOR_GRIPPER MOTOR_DIR_FORWARD 60] ++ pollTrace 80 ++
        [Event.motor_brake MOTOR_GRIPPER, Event.set_status_led false,
         Event.send_status "[Tool] Harvest cycle END\n"] ∧
      (issued w w').filter Event.isDelay =
        List.replicate 80 (Event.delay_ms 10) ++ [Event.delay_ms 150] ++
        List.replicate 90 (Event.delay_ms 10) ++ [Event.delay_ms 150] ++
        List.replicate 120 (Event.delay_ms 10) ++ [Event.delay_ms 150] ++
        List.replicate 90 (Event.delay_ms 10) ++ [Event.delay_ms 150] ++
        List.replicate 80 (Event.delay_ms 10) ∧
      totalDelay (issued w w') = 5200 := by
  refine ⟨_, tool_run_single_harvest_cycle_quiet inp fuel w hfuel (fun i => hfalse _), ?_, ?_, ?_⟩
  · rw [cycleWorld_issued]
    simp [cycleTrace, stepTail]
  · rw [cycleWorld_issued]
    simp only [cycleTrace, List.filter_append, stepTail_untripped_filter_isDelay,
      List.filter_cons, List.filter_nil, Event.isDelay, List.nil_append, List.append_nil,
      if_true, Bool.false_eq_true, if_false]
  · rw [cycleWorld_issued]
    simp only [cycleTrace, totalDelay_append, totalDelay_stepTail_untripped]
    simp [totalDelay, Event.delayOf]

/-- C12, on the inputs that never assert either signal, from power-on. -/
theorem harvest_cycle_untripped_delays_witness :
    ∃ w', tool_run_single_harvest_cycle idleInputs 121 World.init = some w' ∧
      totalDelay (issued World.init w') = 5200 := by
  obtain ⟨w', h1, _, _, h4⟩ :=
    harvest_cycle_untripped_delays idleInputs 121 World.init (fun _ => rfl) (by decide)
  exact ⟨w', h1, h4⟩

/-- The part of a cycle trace between its LED-on and LED-off commands. -/
theorem cycleTrace_split (r1 r2 r3 r4 r5 : Nat × Bool) :
    ∃ mid, cycleTrace r1 r2 r3 r4 r5 =
        Event.send_status "[Tool] Harvest cycle START\n" :: Event.set_status_led true ::
          (mid ++ [Event.set_status_led false, Event.send_status "[Tool] Harvest cycle END\n"]) ∧
      mid.filter Event.isLed = [] := by
  have hs : ∀ id m trip, (stepTail id m trip).filter Event.isLed = [] :=
    fun id m trip => stepTail_filter_nil _ id m trip rfl rfl rfl (fun _ => rfl) rfl
  refine ⟨[Event.send_status "[Tool] Opening gripper\n",
      Event.motor_set MOTOR_GRIPPER MOTOR_DIR_FORWARD 60] ++
    stepTail MOTOR_GRIPPER r1.1 r1.2 ++
    [Event.delay_ms 150, Event.send_status "[Tool] Closing gripper\n",
      Event.motor_set MOTOR_GRIPPER MOTOR_DIR_REVERSE 60] ++
    stepTail MOTOR_GRIPPER r2.1 r2.2 ++
    [Event.delay_ms 150, Event.send_status "[Tool] Moving down for cut\n",
      Event.motor_set MOTOR_VERTICAL MOTOR_DIR_FORWARD 70] ++
    stepTail MOTOR_VERTICAL r3.1 r3.2 ++
    [Event.delay_ms 150, Event.send_status "[Tool] Moving up / retract\n",
      Event.motor_set MOTOR_VERTICAL MOTOR_DIR_REVERSE 70] ++
    stepTail MOTOR_VERTICAL r4.1 r4.2 ++
    [Event.delay_ms 150, Event.send_status "[Tool] Releasing gripper\n",
      Event.motor_set MOTOR_GRIPPER MOTOR_DIR_FORWARD 60] ++
    stepTail MOTOR_GRIPPER r5.1 r5.2, ?_, ?_⟩
  · simp [cycleTrace]
  · simp [List.filter_append, List.filter_cons, hs, Event.isLed]

/-- C13. On every emergency-stop stream (tripped in any step or in none) the
harvest cycle returns, and its trace is: the text "[Tool] Harvest cycle START\n",
LED on, a middle part without any LED command, LED off, the text
"[Tool] Harvest cycle END\n". So it holds exactly two LED commands, and every
motor command of the cycle lies in the middle part: after LED on, before LED
off. -/
theorem harvest_cycle_led_brackets (inp : Inputs) (fuel : Nat) (w : World)
    (hfuel : 120 < fuel) :
    ∃ w' mid, tool_run_single_harvest_cycle inp fuel w = some w' ∧
      issued w w' =
        Event.send_status "[Tool] Harvest cycle START\n" :: Event.set_status_led true ::
          (mid ++ [Event.set_status_led false, Event.send_status "[Tool] Harvest cycle END\n"]) ∧
      mid.filter Event.isLed = [] ∧
      (issued w w').filter Event.isLed =
        [Event.set_status_led true, Event.set_status_led false] ∧
      (issued w w').filter Event.isMotorCommand = mid.filter Event.isMotorCommand ∧
      (issued w w').head? = some (Event.send_status "[Tool] Harvest cycle START\n") ∧
      (issued w w').getLast? = some (Event.send_status "[Tool] Harvest cycle END\n") := by
  obtain ⟨r1, r2, r3, r4, r5, hrun, _⟩ := tool_run_single_harvest_cycle_total inp fuel w hfuel
  obtain ⟨mid, hsplit, hmid⟩ := cycleTrace_split r1 r2 r3 r4 r5
  refine ⟨_, mid, hrun, ?_, hmid, ?_, ?_, ?_, ?_⟩
  · rw [cycleWorld_issued, hsplit]
  · rw [cycleWorld_issued, hsplit]
    simp [List.filter_cons, List.filter_append, hmid, Event.isLed]
  · rw [cycleWorld_issued, hsplit]
    simp [List.filter_cons, List.filter_append, Event.isMotorCommand]
  · rw [cycleWorld_issued, hsplit]
    rfl
  · rw [cycleWorld_issued, hsplit]
    have hlast : Event.send_status "[Tool] Harvest cycle START\n" :: Event.set_status_led true ::
        (mid ++ [Event.set_status_led false, Event.send_status "[Tool] Harvest cycle END\n"]) =
        (Event.send_status "[Tool] Harvest cycle START\n" :: Event.set_status_led true ::
          (mid ++ [Event.set_status_led false])) ++
            [Event.send_status "[Tool] Harvest cycle END\n"] := by
      simp
    rw [hlast, List.getLast?_concat]

/-- C13, on inputs whose emergency stop trips step 1 at its first poll. -/
theorem harvest_cycle_led_brackets_witness :
    ∃ w' mid, tool_run_single_harvest_cycle (estopOnlyAt 0) 121 World.init = some w' ∧
      issued World.init w' =
        Event.send_status "[Tool] Harvest cycle START\n" :: Event.set_status_led true ::
          (mid ++ [Event.set_status_led false, Event.send_status "[Tool] Harvest cycle END\n"]) ∧
      mid.filter Event.isLed = [] ∧
      (issued World.init w').filter Event.isLed =
        [Event.set_status_led true, Event.set_status_led false] ∧
      (issued World.init w').filter Event.isMotorCommand = mid.filter Event.isMotorCommand ∧
      (issued World.init w').head? = some (Event.send_status "[Tool] Harvest cycle START\n") ∧
      (issued World.init w').getLast? = some (Event.send_status "[Tool] Harvest cycle END\n") :=
  harvest_cycle_led_brackets (estopOnlyAt 0) 121 World.init (by decide)

/-- C14. On every emergency-stop stream the harvest cycle returns, and the
`motor_set` commands it issued are the five scripted ones, in the scripted
order; they are the same as those of the cycle run, from the same world, on
any stream whose emergency stop never reads true. A step that takes the
emergency path does not stop the following steps from being issued. -/
theorem harvest_cycle_motor_sets_any_stream (inp : Inputs) (fuel : Nat) (w : World)
    (hfuel : 120 < fuel) :
    ∃ w', tool_run_single_harvest_cycle inp fuel w = some w' ∧
      (issued w w').filter Event.isMotorSet =
        [Event.motor_set MOTOR_GRIPPER MOTOR_DIR_FORWARD 60,
         Event.motor_set MOTOR_GRIPPER MOTOR_DIR_REVERSE 60,
         Event.motor_set MOTOR_VERTICAL MOTOR_DIR_FORWARD 70,
         Event.motor_set MOTOR_VERTICAL MOTOR_DIR_REVERSE 70,
         Event.motor_set MOTOR_GRIPPER MOTOR_DIR_FORWARD 60] ∧
      ∀ quiet : Inputs, (∀ n, quiet.estop n = false) →
        ∃ w0, tool_run_single_harvest_cycle quiet fuel w = some w0 ∧
          (issued w w0).filter Event.isMotorSet = (issued w w').filter Event.isMotorSet := by
  obtain ⟨r1, r2, r3, r4, r5, hrun, _⟩ := tool_run_single_harvest_cycle_total inp fuel w hfuel
  refine ⟨_, hrun, ?_, ?_⟩
  · rw [cycleWorld_issued, cycleTrace_filter_isMotorSet]
    rfl
  · intro quiet hq
    refine ⟨_, tool_run_single_harvest_cycle_quiet quiet fuel w hfuel (fun i => hq _), ?_⟩
    rw [cycleWorld_issued, cycleWorld_issued, cycleTrace_filter_isMotorSet,
      cycleTrace_filter_isMotorSet]

/-- C14, on inputs whose emergency stop is asserted at every read. -/
theorem harvest_cycle_motor_sets_any_stream_witness :
    ∃ w', tool_run_single_harvest_cycle
        { start := fun _ => false, estop := fun _ => true } 121 World.init = some w' ∧
      (issued World.init w').filter Event.isMotorSet =
        [Event.motor_set MOTOR_GRIPPER MOTOR_DIR_FORWARD 60,
         Event.motor_set MOTOR_GRIPPER MOTOR_DIR_REVERSE 60,
         Event.motor_set MOTOR_VERTICAL MOTOR_DIR_FORWARD 70,
         Event.motor_set MOTOR_VERTICAL MOTOR_DIR_REVERSE 70,
         Event.motor_set MOTOR_GRIPPER MOTOR_DIR_FORWARD 60] ∧
      ∀ quiet : Inputs, (∀ n, quiet.estop n = false) →
        ∃ w0, tool_run_single_harvest_cycle quiet 121 World.init = some w0 ∧
          (issued World.init w0).filter Event.isMotorSet =
            (issued World.init w').filter Event.isMotorSet :=
  harvest_cycle_motor_sets_any_stream { start := fun _ => false, estop := fun _ => true } 121
    World.init (by decide)

/-! ## The main loop on the stub hardware layer -/

theorem stub_start_signal_clears (s : Stub.State) :
    (Stub.hw_start_signal s).2.start_signal_state = false := by
  unfold Stub.hw_start_signal
  cases h : s.start_signal_state <;> simp [h]

theorem stub_afterStartCalls_cleared :
    ∀ (n : Nat) (s : Stub.State), s.start_signal_state = false →
      (Stub.afterStartCalls n s).start_signal_state = false
  | 0, _, h => h
  | n + 1, s, _ =>
    stub_afterStartCalls_cleared n (Stub.hw_start_signal s).2 (stub_start_signal_clears s)

/-- No function of the stub changes `emergency_stop_flag`. -/
theorem stub_emergency_stop_flag_kept (s : Stub.State) (led_on : Bool) :
    (Stub.hw_start_signal s).2.emergency_stop_flag = s.emergency_stop_flag ∧
    (Stub.hw_emergency_stop_signal s).2.emergency_stop_flag = s.emergency_stop_flag ∧
    (Stub.hw_set_status_led led_on s).emergency_stop_flag = s.emergency_stop_flag := by
  refine ⟨?_, rfl, rfl⟩
  unfold Stub.hw_start_signal
  cases h : s.start_signal_state <;> simp [h]

theorem stubInputs_start_zero : stubInputs.start 0 = true := rfl

theorem stubInputs_start_succ (n : Nat) : stubInputs.start (n + 1) = false := by
  have h := stub_afterStartCalls_cleared n (Stub.hw_start_signal Stub.State.init).2
    (stub_start_signal_clears _)
  show (Stub.hw_start_signal (Stub.afterStartCalls n
    (Stub.hw_start_signal Stub.State.init).2)).1 = false
  unfold Stub.hw_start_signal at h ⊢
  simp only [h, Bool.false_eq_true, if_false]

theorem stubInputs_estop (n : Nat) : stubInputs.estop n = false := rfl

theorem edgeCount_stub : ∀ n, edgeCount stubInputs.start (n + 1) = 1
  | 0 => by
    rw [edgeCount_succ]
    simp [edgeCount, prevAt, stubInputs_start_zero]
  | n + 1 => by
    rw [edgeCount_succ, edgeCount_stub n, stubInputs_start_succ]
    rfl

/-- Cycles invoked by one tick when the emergency stop never reads true. -/
theorem main_tick_count (inp : Inputs) (fuel : Nat) (hfalse : ∀ n, inp.estop n = false)
    (hfuel : 120 < fuel) (i : Nat) :
    ∃ r r', main inp fuel i World.init = some r ∧ main inp fuel (i + 1) World.init = some r' ∧
      cyclesStarted (issued r.2 r'.2) =
        if (inp.start i && !prevAt inp.start i) = true then 1 else 0 := by
  obtain ⟨w1, hrun, hreads, _⟩ := main_quiet inp fuel hfalse hfuel i
  obtain ⟨w2, tr, ht, _, htrace, hcount⟩ :=
    main_tick_quiet inp fuel (prevAt inp.start i) w1 hfalse hfuel
  rw [hreads] at ht hcount
  refine ⟨_, (inp.start i, w2), hrun, ?_, ?_⟩
  · unfold main at hrun ⊢
    rw [main_ticks_succ, hrun]
    exact ht
  · rw [issued_append w1 w2 tr htrace, hcount]

/-- C16. The stub hardware layer delivers `true` at the first read of the
start signal, `false` at every later read, and `false` at every read of the
emergency stop. On it the main loop (previous start initially false) reaches
the end of every tick; tick 1 invokes the harvest cycle once and no later tick
invokes it; after every number `n ≥ 1` of ticks exactly one cycle has run. -/
theorem main_on_stub_runs_one_cycle (fuel : Nat) (hfuel : 120 < fuel) :
    stubInputs.start 0 = true ∧ (∀ k, stubInputs.start (k + 1) = false) ∧
    (∀ k, stubInputs.estop k = false) ∧
    (∀ i, ∃ r r', main stubInputs fuel i World.init = some r ∧
      main stubInputs fuel (i + 1) World.init = some r' ∧
      cyclesStarted (issued r.2 r'.2) = if i = 0 then 1 else 0) ∧
    (∀ n, 1 ≤ n → ∃ r, main stubInputs fuel n World.init = some r ∧
      cyclesStarted r.2.trace = 1) := by
  refine ⟨stubInputs_start_zero, stubInputs_start_succ, stubInputs_estop, ?_, ?_⟩
  · intro i
    obtain ⟨r, r', h1, h2, hc⟩ := main_tick_count stubInputs fuel stubInputs_estop hfuel i
    refine ⟨r, r', h1, h2, ?_⟩
    rw [hc]
    cases i with
    | zero => simp [prevAt, stubInputs_start_zero]
    | succ i => simp [stubInputs_start_succ]
  · intro n hn
    obtain ⟨m, rfl⟩ : ∃ m, n = m + 1 := ⟨n - 1, by omega⟩
    obtain ⟨w', hrun, _, hcount⟩ := main_quiet stubInputs fuel stubInputs_estop hfuel (m + 1)
    exact ⟨_, hrun, by rw [hcount, edgeCount_stub]⟩

/-- C16, after seven ticks with fuel 121. -/
theorem main_on_stub_runs_one_cycle_witness :
    ∃ r, main stubInputs 121 7 World.init = some r ∧ cyclesStarted r.2.trace = 1 :=
  (main_on_stub_runs_one_cycle 121 (by decide)).2.2.2.2 7 (by decide)

/-! ## Emergency-stop reads of `run_motor_for_time` -/

theorem pollTrace_filter_isEstopRead :
    ∀ n, ((pollTrace n).filter Event.isEstopRead).length = n
  | 0 => rfl
  | n + 1 => by
    simp [pollTrace, List.filter_cons, Event.isEstopRead, pollTrace_filter_isEstopRead n]

theorem stepTail_reads (id : MotorId) (r : Nat × Bool) :
    ((stepTail id r.1 r.2).filter Event.isEstopRead).length = stepReads r := by
  obtain ⟨m, trip⟩ := r
  cases trip <;>
    simp [stepTail, stepReads, tripTrace, List.filter_append, List.filter_cons,
      Event.isEstopRead, pollTrace_filter_isEstopRead]

/-- With duration 0 the loop body never runs: whatever the emergency stop
reads, the call issues its `motor_set` and the brake of the same motor, and
nothing else. -/
theorem run_motor_for_time_zero_duration (inp : Inputs) (fuel : Nat) (id : MotorId)
    (dir : MotorDirection) (duty : Nat) (w : World) :
    ∃ w', run_motor_for_time inp (fuel + 1) id dir duty 0 w = some w' ∧
      issued w w' = [Event.motor_set id dir (min duty 100), Event.motor_brake id] ∧
      w'.estopReads = w.estopReads := by
  refine ⟨hw_motor_brake id (hw_motor_set id dir (min duty 100) w), ?_, ?_, rfl⟩
  · unfold run_motor_for_time
    simp only [clamp_eq_min]
    exact run_motor_loop_done inp id 0 fuel 0 _ (Nat.not_lt_zero 0)
  · apply issued_append
    simp [hw_motor_brake, hw_motor_set]

/-- For a duration of at most 4294967286 ms (so that the elapsed counter
cannot wrap) a returning call made at most `ceil(time_ms / 10)` emergency-stop
reads, each of them either followed by a 10 ms delay or the one that tripped. -/
theorem run_motor_for_time_reads_bounded (inp : Inputs) (fuel : Nat) (id : MotorId)
    (dir : MotorDirection) (duty time_ms : Nat) (w w' : World)
    (ht : time_ms + 10 ≤ UINT32_MOD)
    (h : run_motor_for_time inp fuel id dir duty time_ms w = some w') :
    ∃ r : Nat × Bool, issued w w' = Event.motor_set id dir (min duty 100) :: stepTail id r.1 r.2 ∧
      ((issued w w').filter Event.isEstopRead).length = stepReads r ∧
      stepReads r ≤ (time_ms + 9) / 10 := by
  have hloop : run_motor_loop inp id time_ms fuel 0 (hw_motor_set id dir (min duty 100) w) =
      some w' := by
    unfold run_motor_for_time at h
    simp only [clamp_eq_min] at h
    exact h
  obtain ⟨m, _, hout⟩ := run_motor_loop_outcome_bounded inp id time_ms ht _ _ _ _ hloop
  rcases hout with ⟨_, h2, h3⟩ | ⟨h1, h2, h3⟩
  · refine ⟨(m, true), ?_, ?_, ?_⟩
    · exact issued_append w w' _ (by rw [h3]; exact stepEnd_trace id dir _ m true w)
    · rw [issued_append w w' _ (by rw [h3]; exact stepEnd_trace id dir _ m true w),
        List.filter_cons]
      simpa [Event.isEstopRead] using stepTail_reads id (m, true)
    · simp only [stepReads, if_true]
      omega
  · refine ⟨(m, false), ?_, ?_, ?_⟩
    · exact issued_append w w' _ (by rw [h3]; exact stepEnd_trace id dir _ m false w)
    · rw [issued_append w w' _ (by rw [h3]; exact stepEnd_trace id dir _ m false w),
        List.filter_cons]
      simpa [Event.isEstopRead] using stepTail_reads id (m, false)
    · simp only [stepReads, Bool.false_eq_true, if_false]
      omega

/-- C18 (failing input). For `time_ms = 4294967291` and an emergency stop that
never reads true, the elapsed counter wraps from 4294967290 to 4 and the loop
goes on until it reaches 4294967294: the call returns after 858993459
emergency-stop reads, more than `ceil(time_ms / 10) = 429496730`. -/
theorem run_motor_for_time_wrapped_reads :
    (run_motor_for_time idleInputs 858993460 MOTOR_GRIPPER MOTOR_DIR_FORWARD 60 4294967291
      World.init).map (fun w => w.estopReads) = some 858993459 ∧
    (4294967291 + 9) / 10 = 429496730 := by
  refine ⟨?_, by decide⟩
  unfold run_motor_for_time
  simp only [clamp_eq_min]
  have hp := run_motor_loop_polls idleInputs MOTOR_GRIPPER 4294967291 1 858993459 0
    (hw_motor_set MOTOR_GRIPPER MOTOR_DIR_FORWARD (min 60 100) World.init)
    (fun i hi => by
      simp only [UINT32_MOD, Nat.zero_add]
      rcases Nat.lt_or_ge i 429496730 with hlow | hhigh
      · rw [Nat.mod_eq_of_lt (by omega)]
        omega
      · rw [Nat.mod_eq_sub_mod (by omega), Nat.mod_eq_of_lt (by omega)]
        omega)
    (fun _ _ => rfl)
  rw [Nat.zero_mod] at hp
  rw [show (858993460 : Nat) = 1 + 858993459 from rfl, hp]
  rw [run_motor_loop_done idleInputs MOTOR_GRIPPER 4294967291 0 _ _ (by decide)]
  rfl

/-! ## Motor outputs along a trace -/

theorem replay_append (h : HwState) (a b : List Event) :
    replay h (a ++ b) = replay (replay h a) b := by
  simp [replay, List.foldl_append]

theorem replay_pollTrace (h : HwState) : ∀ n, replay h (pollTrace n) = h
  | 0 => rfl
  | n + 1 => by
    have ih := replay_pollTrace h n
    simp only [replay] at ih ⊢
    simpa [pollTrace, applyEvent] using ih

theorem safeAlong_head : ∀ (h : HwState) (tr : List Event), safeAlong h tr →
    h.energizedCount ≤ 1
  | _, [], hs => hs
  | _, _ :: _, hs => hs.1

theorem safeAlong_append : ∀ (a b : List Event) (h : HwState),
    safeAlong h a → safeAlong (replay h a) b → safeAlong h (a ++ b)
  | [], _, _, _, hb => hb
  | e :: a, b, h, ha, hb => ⟨ha.1, safeAlong_append a b (applyEvent h e) ha.2 hb⟩

theorem safeAlong_pollTrace (h : HwState) (hh : h.energizedCount ≤ 1) :
    ∀ n, safeAlong h (pollTrace n)
  | 0 => hh
  | n + 1 => ⟨hh, hh, safeAlong_pollTrace h hh n⟩

/-- Along a safe trace every intermediate output state has at most one
energized motor. -/
theorem safeAlong_take : ∀ (tr : List Event) (h : HwState), safeAlong h tr →
    ∀ n, (replay h (tr.take n)).energizedCount ≤ 1
  | [], h, hs, n => by simpa [replay] using hs
  | e :: tr, h, hs, 0 => by simpa [replay] using hs.1
  | e :: tr, h, hs, n + 1 => by
    have ih := safeAlong_take tr (applyEvent h e) hs.2 n
    simpa [replay] using ih

theorem allBraked_eq (h : HwState) (hb : h.allBraked) : h = brakedHw h.led := by
  obtain ⟨g, v, a, l⟩ := h
  obtain ⟨h1, h2, h3⟩ := hb
  simp only at h1 h2 h3
  simp [brakedHw, h1, h2, h3]

/-- One step from all-braked outputs: the commanded motor is the only one
ever energized, and the step ends with all motors braked again. -/
theorem step_safe (id : MotorId) (dir : MotorDirection) (duty m : Nat) (trip led : Bool) :
    safeAlong (brakedHw led) (Event.motor_set id dir duty :: stepTail id m trip) ∧
      replay (brakedHw led) (Event.motor_set id dir duty :: stepTail id m trip) =
        brakedHw led := by
  have hcount : (applyEvent (brakedHw led) (Event.motor_set id dir duty)).energizedCount ≤ 1 := by
    cases id <;> simp [applyEvent, brakedHw, HwState.setMotor, HwState.energizedCount,
      MotorOut.energized]
  constructor
  · refine ⟨by simp [brakedHw, HwState.energizedCount, MotorOut.energized], ?_⟩
    unfold stepTail
    apply safeAlong_append _ _ _ (safeAlong_pollTrace _ hcount m)
    rw [replay_pollTrace]
    cases id <;> cases trip <;>
      simp [safeAlong, tripTrace, applyEvent, brakedHw, HwState.setMotor,
        HwState.energizedCount, MotorOut.energized]
  · show replay (applyEvent (brakedHw led) (Event.motor_set id dir duty)) (stepTail id m trip) = _
    unfold stepTail
    rw [replay_append, replay_pollTrace]
    cases id <;> cases trip <;>
      simp [replay, tripTrace, applyEvent, brakedHw, HwState.setMotor]

/-- The outputs a step leaves are those its hardware calls produce. -/
theorem stepEnd_hw (id : MotorId) (dir : MotorDirection) (duty m : Nat) (trip : Bool)
    (w : World) :
    (stepEnd id trip (polled m (hw_motor_set id dir duty w))).hw =
      replay w.hw (Event.motor_set id dir duty :: stepTail id m trip) := by
  show _ = replay (applyEvent w.hw (Event.motor_set id dir duty)) (stepTail id m trip)
  unfold stepTail
  rw [replay_append, replay_pollTrace]
  cases id <;> cases trip <;>
    simp [replay, tripTrace, applyEvent, HwState.setMotor, stepEnd, tripped, polled,
      hw_motor_set, hw_motor_brake]

/-- The cycle trace cut into its steps (`motor_set` with what follows it) and
the calls between them. -/
theorem cycleTrace_segments (r1 r2 r3 r4 r5 : Nat × Bool) :
    cycleTrace r1 r2 r3 r4 r5 =
      [Event.send_status "[Tool] Harvest cycle START\n", Event.set_status_led true,
       Event.send_status "[Tool] Opening gripper\n"] ++
      ((Event.motor_set MOTOR_GRIPPER MOTOR_DIR_FORWARD 60 :: stepTail MOTOR_GRIPPER r1.1 r1.2) ++
      ([Event.delay_ms 150, Event.send_status "[Tool] Closing gripper\n"] ++
      ((Event.motor_set MOTOR_GRIPPER MOTOR_DIR_REVERSE 60 :: stepTail MOTOR_GRIPPER r2.1 r2.2) ++
      ([Event.delay_ms 150, Event.send_status "[Tool] Moving down for cut\n"] ++
      ((Event.motor_set MOTOR_VERTICAL MOTOR_DIR_FORWARD 70 ::
        stepTail MOTOR_VERTICAL r3.1 r3.2) ++
      ([Event.delay_ms 150, Event.send_status "[Tool] Moving up / retract\n"] ++
      ((Event.motor_set MOTOR_VERTICAL MOTOR_DIR_REVERSE 70 ::
        stepTail MOTOR_VERTICAL r4.1 r4.2) ++
      ([Event.delay_ms 150, Event.send_status "[Tool] Releasing gripper\n"] ++
      ((Event.motor_set MOTOR_GRIPPER MOTOR_DIR_FORWARD 60 :: stepTail MOTOR_GRIPPER r5.1 r5.2) ++
      [Event.set_status_led false,
       Event.send_status "[Tool] Harvest cycle END\n"]))))))))) := by
  simp [cycleTrace]

theorem settle_safe (led : Bool) (text : String) :
    safeAlong (brakedHw led) [Event.delay_ms 150, Event.send_status text] ∧
      replay (brakedHw led) [Event.delay_ms 150, Event.send_status text] = brakedHw led := by
  simp [safeAlong, replay, applyEvent, brakedHw, HwState.energizedCount, MotorOut.energized]

/-- From all-braked outputs the whole cycle keeps at most one motor energized
and ends with all motors braked and the LED off. -/
theorem cycleTrace_safe (r1 r2 r3 r4 r5 : Nat × Bool) (led : Bool) :
    safeAlong (brakedHw led) (cycleTrace r1 r2 r3 r4 r5) ∧
      replay (brakedHw led) (cycleTrace r1 r2 r3 r4 r5) = brakedHw false := by
  have hstart : safeAlong (brakedHw led)
      [Event.send_status "[Tool] Harvest cycle START\n", Event.set_status_led true,
       Event.send_status "[Tool] Opening gripper\n"] ∧
      replay (brakedHw led)
        [Event.send_status "[Tool] Harvest cycle START\n", Event.set_status_led true,
         Event.send_status "[Tool] Opening gripper\n"] = brakedHw true := by
    simp [safeAlong, replay, applyEvent, brakedHw, HwState.energizedCount, MotorOut.energized]
  have hend : safeAlong (brakedHw true)
      [Event.set_status_led false, Event.send_status "[Tool] Harvest cycle END\n"] ∧
      replay (brakedHw true)
        [Event.set_status_led false, Event.send_status "[Tool] Harvest cycle END\n"] =
          brakedHw false := by
    simp [safeAlong, replay, applyEvent, brakedHw, HwState.energizedCount, MotorOut.energized]
  have s1 := step_safe MOTOR_GRIPPER MOTOR_DIR_FORWARD 60 r1.1 r1.2 true
  have s2 := step_safe MOTOR_GRIPPER MOTOR_DIR_REVERSE 60 r2.1 r2.2 true
  have s3 := step_safe MOTOR_VERTICAL MOTOR_DIR_FORWARD 70 r3.1 r3.2 true
  have s4 := step_safe MOTOR_VERTICAL MOTOR_DIR_REVERSE 70 r4.1 r4.2 true
  have s5 := step_safe MOTOR_GRIPPER MOTOR_DIR_FORWARD 60 r5.1 r5.2 true
  have d1 := settle_safe true "[Tool] Closing gripper\n"
  have d2 := settle_safe true "[Tool] Moving down for cut\n"
  have d3 := settle_safe true "[Tool] Moving up / retract\n"
  have d4 := settle_safe true "[Tool] Releasing gripper\n"
  rw [cycleTrace_segments]
  constructor
  · apply safeAlong_append _ _ _ hstart.1
    rw [hstart.2]
    apply safeAlong_append _ _ _ s1.1
    rw [s1.2]
    apply safeAlong_append _ _ _ d1.1
    rw [d1.2]
    apply safeAlong_append _ _ _ s2.1
    rw [s2.2]
    apply safeAlong_append _ _ _ d2.1
    rw [d2.2]
    apply safeAlong_append _ _ _ s3.1
    rw [s3.2]
    apply safeAlong_append _ _ _ d3.1
    rw [d3.2]
    apply safeAlong_append _ _ _ s4.1
    rw [s4.2]
    apply safeAlong_append _ _ _ d4.1
    rw [d4.2]
    apply safeAlong_append _ _ _ s5.1
    rw [s5.2]
    exact hend.1
  · rw [replay_append, hstart.2, replay_append, s1.2, replay_append, d1.2, replay_append, s2.2,
      replay_append, d2.2, replay_append, s3.2, replay_append, d3.2, replay_append, s4.2,
      replay_append, d4.2, replay_append, s5.2, hend.2]

/-- The outputs the cycle leaves are those its hardware calls produce. -/
theorem cycleWorld_hw (r1 r2 r3 r4 r5 : Nat × Bool) (w : World) :
    (cycleWorld r1 r2 r3 r4 r5 w).hw = replay w.hw (cycleTrace r1 r2 r3 r4 r5) := by
  have hs : ∀ (t : String) (x : World), (hw_send_status t x).hw = x.hw := fun _ _ => rfl
  have hd : ∀ (ms : Nat) (x : World), (hw_delay_ms ms x).hw = x.hw := fun _ _ => rfl
  have hl : ∀ (b : Bool) (x : World), (hw_set_status_led b x).hw = { x.hw with led := b } :=
    fun _ _ => rfl
  rw [cycleTrace_segments]
  unfold cycleWorld
  simp only [replay_append, hs, hd, hl, stepEnd_hw]
  rfl

/-- C15. On the explicit outputs (`replay` applies each hardware call of a
trace to them, and yields the outputs the code leaves): for every
emergency-stop stream, if all three motors are braked when
`tool_run_single_harvest_cycle` is called, the cycle returns with all three
braked, and after every initial part of its trace at most one motor is
energized. The same holds for every returning `run_motor_for_time` call, for
any motor, direction, duty and duration: no motor is left energized on either
exit path. -/
theorem no_motor_left_energized (inp : Inputs) (fuel : Nat) (w : World)
    (hfuel : 120 < fuel) (hb : w.hw.allBraked) :
    (∃ w', tool_run_single_harvest_cycle inp fuel w = some w' ∧ w'.hw.allBraked ∧
      replay w.hw (issued w w') = w'.hw ∧
      ∀ n, (replay w.hw ((issued w w').take n)).energizedCount ≤ 1) ∧
    (∀ (id : MotorId) (dir : MotorDirection) (duty_percent time_ms : Nat) (w1 : World),
      run_motor_for_time inp fuel id dir duty_percent time_ms w = some w1 →
        w1.hw.allBraked ∧ replay w.hw (issued w w1) = w1.hw ∧
        ∀ n, (replay w.hw ((issued w w1).take n)).energizedCount ≤ 1) := by
  have hw0 := allBraked_eq w.hw hb
  constructor
  · obtain ⟨r1, r2, r3, r4, r5, hrun, _⟩ := tool_run_single_harvest_cycle_total inp fuel w hfuel
    obtain ⟨hsafe, hfinal⟩ := cycleTrace_safe r1 r2 r3 r4 r5 w.hw.led
    rw [← hw0] at hsafe hfinal
    refine ⟨_, hrun, ?_, ?_, ?_⟩
    · rw [cycleWorld_hw, hfinal]
      exact ⟨rfl, rfl, rfl⟩
    · rw [cycleWorld_issued, cycleWorld_hw]
    · rw [cycleWorld_issued]
      exact safeAlong_take _ _ hsafe
  · intro id dir duty_percent time_ms w1 hrun
    obtain ⟨m, trip, _, hw1, _, _⟩ :=
      run_motor_for_time_outcome inp fuel id dir duty_percent time_ms w w1 hrun
    have hiss : issued w w1 =
        Event.motor_set id dir (min duty_percent 100) :: stepTail id m trip :=
      issued_append w w1 _ (by rw [hw1, stepEnd_trace])
    obtain ⟨hsafe, hfinal⟩ := step_safe id dir (min duty_percent 100) m trip w.hw.led
    rw [← hw0] at hsafe hfinal
    have hhw : w1.hw = replay w.hw (issued w w1) := by
      rw [hiss, hw1, stepEnd_hw]
    refine ⟨?_, hhw.symm, ?_⟩
    · rw [hhw, hiss, hfinal]
      exact hb
    · rw [hiss]
      exact safeAlong_take _ _ hsafe

/-- C15, for the cycle run from power-on on inputs whose emergency stop trips
step 1 at its first poll. -/
theorem no_motor_left_energized_witness :
    ∃ w', tool_run_single_harvest_cycle (estopOnlyAt 0) 121 World.init = some w' ∧
      w'.hw.allBraked ∧ replay World.init.hw (issued World.init w') = w'.hw ∧
      ∀ n, (replay World.init.hw ((issued World.init w').take n)).energizedCount ≤ 1 :=
  (no_motor_left_energized (estopOnlyAt 0) 121 World.init (by decide) ⟨rfl, rfl, rfl⟩).1

/-! ## Delay between consecutive emergency-stop reads -/

theorem gapsFrom_append : ∀ (a b : List Event) (acc : Option Nat),
    gapsFrom acc (a ++ b) = gapsFrom acc a ++ gapsFrom (accAfter acc a) b
  | [], _, _ => rfl
  | e :: a, b, acc => by
    cases h : e.isEstopRead <;>
      simp [gapsFrom, accAfter, h, gapsFrom_append a b]

theorem accAfter_append : ∀ (a b : List Event) (acc : Option Nat),
    accAfter acc (a ++ b) = accAfter (accAfter acc a) b
  | [], _, _ => rfl
  | e :: a, b, acc => by
    cases h : e.isEstopRead <;>
      simp [accAfter, h, accAfter_append a b]

/-- An event that is neither a read nor a delay changes nothing. -/
theorem gapsFrom_skip (acc : Option Nat) (e : Event) (rest : List Event)
    (h1 : e.isEstopRead = false) (h2 : e.delayOf = 0) :
    gapsFrom acc (e :: rest) = gapsFrom acc rest ∧
      accAfter acc (e :: rest) = accAfter acc rest := by
  cases acc <;> simp [gapsFrom, accAfter, h1, h2]

theorem gapsFrom_poll10 : ∀ m, gapsFrom (some 10) (pollTrace m) = List.replicate m 10 ∧
    accAfter (some 10) (pollTrace m) = some 10
  | 0 => ⟨rfl, rfl⟩
  | m + 1 => by
    obtain ⟨ih1, ih2⟩ := gapsFrom_poll10 m
    constructor
    · simp [pollTrace, gapsFrom, Event.isEstopRead, Event.delayOf, ih1, List.replicate_succ]
    · simp [pollTrace, accAfter, Event.isEstopRead, Event.delayOf, ih2]

theorem gapsFrom_pollTrace_succ (acc : Option Nat) (m : Nat) :
    gapsFrom acc (pollTrace (m + 1)) = acc.toList ++ List.replicate m 10 ∧
      accAfter acc (pollTrace (m + 1)) = some 10 := by
  obtain ⟨h1, h2⟩ := gapsFrom_poll10 m
  constructor
  · simp [pollTrace, gapsFrom, Event.isEstopRead, Event.delayOf, h1]
  · simp [pollTrace, accAfter, Event.isEstopRead, Event.delayOf, h2]

/-- Gaps inside one step and the delay pending at its end, for a step that
polls at least once when it does not trip. -/
theorem stepTail_gaps (id : MotorId) (r : Nat × Bool) (acc : Option Nat)
    (hr : r.2 = false → 0 < r.1) :
    gapsFrom acc (stepTail id r.1 r.2) = acc.toList ++ stepGaps r ∧
      accAfter acc (stepTail id r.1 r.2) = some (stepAcc r) := by
  obtain ⟨m, trip⟩ := r
  cases trip with
  | false =>
    obtain ⟨k, rfl⟩ : ∃ k, m = k + 1 := ⟨m - 1, by have := hr rfl; simp only at this; omega⟩
    obtain ⟨h1, h2⟩ := gapsFrom_pollTrace_succ acc k
    simp only [stepTail, gapsFrom_append, accAfter_append, h1, h2]
    simp [gapsFrom, accAfter, stepGaps, stepAcc, Event.isEstopRead, Event.delayOf]
  | true =>
    cases m with
    | zero =>
      cases acc <;>
        simp [stepTail, pollTrace, tripTrace, gapsFrom, accAfter, stepGaps, stepAcc,
          Event.isEstopRead, Event.delayOf]
    | succ k =>
      obtain ⟨h1, h2⟩ := gapsFrom_pollTrace_succ acc k
      simp only [stepTail, gapsFrom_append, accAfter_append, h1, h2]
      simp [tripTrace, gapsFrom, accAfter, stepGaps, stepAcc, Event.isEstopRead,
        Event.delayOf, List.replicate_succ']

theorem step_gaps (id : MotorId) (dir : MotorDirection) (duty : Nat) (r : Nat × Bool)
    (acc : Option Nat) (hr : r.2 = false → 0 < r.1) :
    gapsFrom acc (Event.motor_set id dir duty :: stepTail id r.1 r.2) =
        acc.toList ++ stepGaps r ∧
      accAfter acc (Event.motor_set id dir duty :: stepTail id r.1 r.2) = some (stepAcc r) := by
  obtain ⟨h1, h2⟩ := gapsFrom_skip acc (Event.motor_set id dir duty) (stepTail id r.1 r.2) rfl rfl
  rw [h1, h2]
  exact stepTail_gaps id r acc hr

theorem settle_gaps (a : Nat) (text : String) :
    gapsFrom (some a) [Event.delay_ms 150, Event.send_status text] = [] ∧
      accAfter (some a) [Event.delay_ms 150, Event.send_status text] = some (a + 150) := by
  simp [gapsFrom, accAfter, Event.isEstopRead, Event.delayOf]

/-- The gaps between consecutive reads of a whole cycle: those inside each
step, and between two steps the delay pending at the end of the first plus the
150 ms settle delay. -/
theorem cycleTrace_readGaps (r1 r2 r3 r4 r5 : Nat × Bool)
    (h1 : r1.2 = false → 0 < r1.1) (h2 : r2.2 = false → 0 < r2.1)
    (h3 : r3.2 = false → 0 < r3.1) (h4 : r4.2 = false → 0 < r4.1)
    (h5 : r5.2 = false → 0 < r5.1) :
    readGaps (cycleTrace r1 r2 r3 r4 r5) =
      stepGaps r1 ++ [stepAcc r1 + 150] ++ stepGaps r2 ++ [stepAcc r2 + 150] ++
      stepGaps r3 ++ [stepAcc r3 + 150] ++ stepGaps r4 ++ [stepAcc r4 + 150] ++ stepGaps r5 := by
  have p0 : gapsFrom none [Event.send_status "[Tool] Harvest cycle START\n",
      Event.set_status_led true, Event.send_status "[Tool] Opening gripper\n"] = [] ∧
      accAfter none [Event.send_status "[Tool] Harvest cycle START\n",
        Event.set_status_led true, Event.send_status "[Tool] Opening gripper\n"] = none :=
    ⟨rfl, rfl⟩
  have s1 := step_gaps MOTOR_GRIPPER MOTOR_DIR_FORWARD 60 r1 none h1
  have d1 := settle_gaps (stepAcc r1) "[Tool] Closing gripper\n"
  have s2 := step_gaps MOTOR_GRIPPER MOTOR_DIR_REVERSE 60 r2 (some (stepAcc r1 + 150)) h2
  have d2 := settle_gaps (stepAcc r2) "[Tool] Moving down for cut\n"
  have s3 := step_gaps MOTOR_VERTICAL MOTOR_DIR_FORWARD 70 r3 (some (stepAcc r2 + 150)) h3
  have d3 := settle_gaps (stepAcc r3) "[Tool] Moving up / retract\n"
  have s4 := step_gaps MOTOR_VERTICAL MOTOR_DIR_REVERSE 70 r4 (some (stepAcc r3 + 150)) h4
  have d4 := settle_gaps (stepAcc r4) "[Tool] Releasing gripper\n"
  have s5 := step_gaps MOTOR_GRIPPER MOTOR_DIR_FORWARD 60 r5 (some (stepAcc r4 + 150)) h5
  have pe : gapsFrom (some (stepAcc r5)) [Event.set_status_led false,
      Event.send_status "[Tool] Harvest cycle END\n"] = [] := by
    simp [gapsFrom, Event.isEstopRead, Event.delayOf]
  rw [readGaps, cycleTrace_segments]
  simp only [gapsFrom_append, accAfter_append, p0.1, p0.2, s1.1, s1.2, d1.1, d1.2, s2.1, s2.2,
    d2.1, d2.2, s3.1, s3.2, d3.1, d3.2, s4.1, s4.2, d4.1, d4.2, s5.1, s5.2, pe]
  simp [Option.toList]

theorem stepFacts_polls (inp : Inputs) (time_ms base : Nat) (r : Nat × Bool)
    (ht : 0 < time_ms) (hf : stepFacts inp time_ms base r) : r.2 = false → 0 < r.1 := by
  intro h
  have := hf.2.2 h
  omega

theorem stepGaps_le (r : Nat × Bool) : ∀ g, g ∈ stepGaps r → g = 10 := by
  intro g hg
  exact (List.mem_replicate.mp hg).2

theorem stepAcc_le (r : Nat × Bool) : stepAcc r + 150 ≤ 160 := by
  obtain ⟨m, trip⟩ := r
  cases trip <;> simp [stepAcc]

/-- C17. `readGaps` lists, for every two consecutive emergency-stop reads of
a trace, the total delay issued between them. For every emergency-stop stream:
* the harvest cycle returns and none of its gaps exceeds 160 ms;
* when the emergency stop never reads true, the gaps of the cycle are 79 gaps
  of 10 ms inside step 1, then 160 ms up to the first poll of step 2, then 89
  of 10 ms, 160 ms, 119 of 10 ms, 160 ms, 89 of 10 ms, 160 ms, and 79 of 10 ms
  inside step 5;
* inside every returning `run_motor_for_time` call each gap is exactly 10 ms. -/
theorem read_gaps_bounded (inp : Inputs) (fuel : Nat) (w : World) (hfuel : 120 < fuel) :
    (∃ w', tool_run_single_harvest_cycle inp fuel w = some w' ∧
      ∀ g, g ∈ readGaps (issued w w') → g ≤ 160) ∧
    ((∀ n, inp.estop n = false) →
      ∃ w', tool_run_single_harvest_cycle inp fuel w = some w' ∧
        readGaps (issued w w') =
          List.replicate 79 10 ++ [160] ++ List.replicate 89 10 ++ [160] ++
          List.replicate 119 10 ++ [160] ++ List.replicate 89 10 ++ [160] ++
          List.replicate 79 10) ∧
    (∀ (id : MotorId) (dir : MotorDirection) (duty_percent time_ms : Nat) (w1 : World),
      run_motor_for_time inp fuel id dir duty_percent time_ms w = some w1 →
        ∀ g, g ∈ readGaps (issued w w1) → g = 10) := by
  refine ⟨?_, ?_, ?_⟩
  · obtain ⟨r1, r2, r3, r4, r5, hrun, f1, f2, f3, f4, f5⟩ :=
      tool_run_single_harvest_cycle_total inp fuel w hfuel
    refine ⟨_, hrun, ?_⟩
    rw [cycleWorld_issued, cycleTrace_readGaps r1 r2 r3 r4 r5
      (stepFacts_polls inp 800 _ r1 (by decide) f1)
      (stepFacts_polls inp 900 _ r2 (by decide) f2)
      (stepFacts_polls inp 1200 _ r3 (by decide) f3)
      (stepFacts_polls inp 900 _ r4 (by decide) f4)
      (stepFacts_polls inp 800 _ r5 (by decide) f5)]
    intro g hg
    simp only [List.mem_append, List.mem_singleton] at hg
    have b1 := stepAcc_le r1
    have b2 := stepAcc_le r2
    have b3 := stepAcc_le r3
    have b4 := stepAcc_le r4
    rcases hg with ((((((((hg | hg) | hg) | hg) | hg) | hg) | hg) | hg) | hg)
    · have := stepGaps_le r1 g hg; omega
    · omega
    · have := stepGaps_le r2 g hg; omega
    · omega
    · have := stepGaps_le r3 g hg; omega
    · omega
    · have := stepGaps_le r4 g hg; omega
    · omega
    · have := stepGaps_le r5 g hg; omega
  · intro hfalse
    refine ⟨_, tool_run_single_harvest_cycle_quiet inp fuel w hfuel (fun i => hfalse _), ?_⟩
    rw [cycleWorld_issued, cycleTrace_readGaps (80, false) (90, false) (120, false) (90, false)
      (80, false) (fun _ => by decide) (fun _ => by decide) (fun _ => by decide)
      (fun _ => by decide) (fun _ => by decide)]
    rfl
  · intro id dir duty_percent time_ms w1 hrun
    obtain ⟨m, trip, hiss⟩ :=
      run_motor_for_time_issued inp fuel id dir duty_percent time_ms w w1 hrun
    rw [hiss, readGaps,
      (gapsFrom_skip none (Event.motor_set id dir (min duty_percent 100)) _ rfl rfl).1]
    intro g hg
    cases trip with
    | true =>
      rw [(stepTail_gaps id (m, true) none (fun hc => by cases hc)).1] at hg
      exact stepGaps_le (m, true) g (by simpa [Option.toList] using hg)
    | false =>
      cases m with
      | zero => simp [stepTail, pollTrace, gapsFrom, Event.isEstopRead, Event.delayOf] at hg
      | succ k =>
        rw [(stepTail_gaps id (k + 1, false) none (fun _ => Nat.succ_pos k)).1] at hg
        exact stepGaps_le (k + 1, false) g (by simpa [Option.toList] using hg)

/-- C17, in the untripped cycle from power-on. -/
theorem read_gaps_bounded_witness :
    ∃ w', tool_run_single_harvest_cycle idleInputs 121 World.init = some w' ∧
      readGaps (issued World.init w') =
        List.replicate 79 10 ++ [160] ++ List.replicate 89 10 ++ [160] ++
        List.replicate 119 10 ++ [160] ++ List.replicate 89 10 ++ [160] ++
        List.replicate 79 10 :=
  (read_gaps_bounded idleInputs 121 World.init (by decide)).2.1 (fun _ => rfl)

/-! ## The commanded duty -/

/-- A returning loop ends in the world the bounded run reaches. -/
theorem run_motor_loop_upto_eq (inp : Inputs) (id : MotorId) (time_ms : Nat) :
    ∀ (fuel elapsed : Nat) (w w' : World),
      run_motor_loop inp id time_ms fuel elapsed w = some w' →
      run_motor_loop_upto inp id time_ms fuel elapsed w = w' := by
  intro fuel
  induction fuel with
  | zero => intro elapsed w w' h; simp [run_motor_loop] at h
  | succ fuel ih =>
    intro elapsed w w' h
    by_cases hlt : elapsed < time_ms
    · cases he : (hw_emergency_stop_signal inp w).1 with
      | true =>
        simp only [run_motor_loop, hlt, if_true, he] at h
        simp only [run_motor_loop_upto, hlt, if_true, he]
        exact Option.some.inj h
      | false =>
        simp only [run_motor_loop, hlt, if_true, he, Bool.false_eq_true, if_false] at h
        simp only [run_motor_loop_upto, hlt, if_true, he, Bool.false_eq_true, if_false]
        exact ih _ _ _ h
    · simp only [run_motor_loop, hlt, if_false] at h
      simp only [run_motor_loop_upto, hlt, if_false]
      exact Option.some.inj h

/-- However long the loop has run, it has issued no `motor_set`. -/
theorem run_motor_loop_upto_no_motor_set (inp : Inputs) (id : MotorId) (time_ms : Nat) :
    ∀ (fuel elapsed : Nat) (w : World),
      ∃ l, (run_motor_loop_upto inp id time_ms fuel elapsed w).trace = w.trace ++ l ∧
        l.filter Event.isMotorSet = [] := by
  intro fuel
  induction fuel with
  | zero => intro elapsed w; exact ⟨[], by simp [run_motor_loop_upto], rfl⟩
  | succ fuel ih =>
    intro elapsed w
    by_cases hlt : elapsed < time_ms
    · cases he : (hw_emergency_stop_signal inp w).1 with
      | true =>
        refine ⟨[Event.emergency_stop_signal (inp.estop w.estopReads),
          Event.motor_brake MOTOR_GRIPPER, Event.motor_brake MOTOR_VERTICAL,
          Event.motor_brake MOTOR_AUX, Event.send_status "EMERGENCY STOP\n"], ?_, rfl⟩
        simp only [run_motor_loop_upto, hlt, if_true, he]
        simp [hw_send_status, hw_motor_brake, hw_emergency_stop_signal]
      | false =>
        obtain ⟨l, hl, hf⟩ := ih ((elapsed + 10) % UINT32_MOD)
          (hw_delay_ms 10 (hw_emergency_stop_signal inp w).2)
        refine ⟨Event.emergency_stop_signal (inp.estop w.estopReads) :: Event.delay_ms 10 :: l,
          ?_, ?_⟩
        · simp only [run_motor_loop_upto, hlt, if_true, he, Bool.false_eq_true, if_false]
          rw [hl]
          simp [hw_delay_ms, hw_emergency_stop_signal]
        · simp [List.filter_cons, Event.isMotorSet, hf]
    · refine ⟨[Event.motor_brake id], ?_, rfl⟩
      simp only [run_motor_loop_upto, hlt, if_false]
      simp [hw_motor_brake]

theorem run_motor_for_time_upto_motor_sets (inp : Inputs) (fuel : Nat) (id : MotorId)
    (dir : MotorDirection) (d time_ms : Nat) (w : World) :
    (issued w (run_motor_for_time_upto inp fuel id dir d time_ms w)).filter Event.isMotorSet =
      [Event.motor_set id dir (min d 100)] := by
  unfold run_motor_for_time_upto
  simp only [clamp_eq_min]
  obtain ⟨l, hl, hf⟩ := run_motor_loop_upto_no_motor_set inp id time_ms fuel 0
    (hw_motor_set id dir (min d 100) w)
  rw [issued_append w _ (Event.motor_set id dir (min d 100) :: l)
    (by rw [hl]; simp [hw_motor_set])]
  simp [List.filter_cons, Event.isMotorSet, hf]

theorem run_motor_for_time_upto_eq (inp : Inputs) (fuel : Nat) (id : MotorId)
    (dir : MotorDirection) (d time_ms : Nat) (w w' : World)
    (h : run_motor_for_time inp fuel id dir d time_ms w = some w') :
    run_motor_for_time_upto inp fuel id dir d time_ms w = w' := by
  unfold run_motor_for_time at h
  unfold run_motor_for_time_upto
  exact run_motor_loop_upto_eq inp id time_ms fuel 0 _ w' h

/-- C7. For every duty `d` (every natural number, so every 8-bit value), every
motor, direction, duration, emergency-stop stream and prior world:
* when the duration cannot wrap the elapsed counter (`time_ms + 10 ≤ 2 ^ 32`)
  and the fuel covers it, the call returns, and the `motor_set` commands it
  issued are exactly one, carrying the duty `min d 100`;
* for every duration, a call that returns issued exactly that one `motor_set`;
* for every duration and however long the call has run (returned or not), the
  `motor_set` commands issued so far are exactly that one;
* whether the call returns does not depend on the duty: no duty is rejected;
* `min d 100` is 100 for every `d > 100` and `d` itself for every `d ≤ 100`. -/
theorem run_motor_for_time_clamps_duty (inp : Inputs) (fuel : Nat) (id : MotorId)
    (dir : MotorDirection) (d time_ms : Nat) (w : World) :
    (time_ms + 10 ≤ UINT32_MOD → time_ms + 10 ≤ 10 * fuel →
      ∃ w', run_motor_for_time inp fuel id dir d time_ms w = some w' ∧
        (issued w w').filter Event.isMotorSet = [Event.motor_set id dir (min d 100)]) ∧
    (∀ w', run_motor_for_time inp fuel id dir d time_ms w = some w' →
      (issued w w').filter Event.isMotorSet = [Event.motor_set id dir (min d 100)]) ∧
    (issued w (run_motor_for_time_upto inp fuel id dir d time_ms w)).filter Event.isMotorSet =
      [Event.motor_set id dir (min d 100)] ∧
    (∀ d', (run_motor_for_time inp fuel id dir d' time_ms w).isSome =
      (run_motor_for_time inp fuel id dir d time_ms w).isSome) ∧
    (100 < d → min d 100 = 100) ∧ (d ≤ 100 → min d 100 = d) := by
  have hret : ∀ w', run_motor_for_time inp fuel id dir d time_ms w = some w' →
      (issued w w').filter Event.isMotorSet = [Event.motor_set id dir (min d 100)] := by
    intro w' h
    rw [← run_motor_for_time_upto_eq inp fuel id dir d time_ms w w' h]
    exact run_motor_for_time_upto_motor_sets inp fuel id dir d time_ms w
  refine ⟨?_, hret, run_motor_for_time_upto_motor_sets inp fuel id dir d time_ms w, ?_,
    fun hd => by omega, fun hd => by omega⟩
  · intro ht hfuel
    obtain ⟨r, hrun, _⟩ := run_motor_for_time_total inp fuel id dir d time_ms w ht hfuel
    exact ⟨_, hrun, hret _ hrun⟩
  · intro d'
    unfold run_motor_for_time
    exact run_motor_loop_isSome_congr inp id time_ms fuel 0 _ _ rfl

/-- C7, at a concrete input: duty 255 for 800 ms, with the emergency stop
asserted at its fourth read; the call returns and commanded duty 100. -/
theorem run_motor_for_time_clamps_duty_witness :
    ∃ w', run_motor_for_time (estopOnlyAt 3) 81 MOTOR_GRIPPER MOTOR_DIR_FORWARD 255 800
        World.init = some w' ∧
      (issued World.init w').filter Event.isMotorSet =
        [Event.motor_set MOTOR_GRIPPER MOTOR_DIR_FORWARD (min 255 100)] :=
  (run_motor_for_time_clamps_duty (estopOnlyAt 3) 81 MOTOR_GRIPPER MOTOR_DIR_FORWARD 255 800
    World.init).1 (by decide) (by decide)

/-! ## What follows a trip inside the harvest cycle -/

/-- Where an element of a concatenation lies: in the first list or in the second. -/
theorem split_append (x : Event) : ∀ (l1 l2 pre post : List Event),
    l1 ++ l2 = pre ++ x :: post →
    (∃ mid, l1 = pre ++ x :: mid ∧ post = mid ++ l2) ∨
      (∃ mid, pre = l1 ++ mid ∧ l2 = mid ++ x :: post)
  | [], l2, pre, post, h => Or.inr ⟨pre, rfl, by simpa using h⟩
  | a :: l1, l2, [], post, h => by
    simp only [List.cons_append, List.nil_append, List.cons.injEq] at h
    exact Or.inl ⟨l1, by simp [h.1], h.2.symm⟩
  | a :: l1, l2, b :: pre, post, h => by
    simp only [List.cons_append, List.cons.injEq] at h
    rcases split_append x l1 l2 pre post h.2 with ⟨mid, h1, h2⟩ | ⟨mid, h1, h2⟩
    · exact Or.inl ⟨mid, by simp [h.1, h1], h2⟩
    · exact Or.inr ⟨mid, by simp [h.1, h1], h2⟩

/-- An element that a segment does not hold lies after the segment. -/
theorem split_after (x : Event) (seg rest pre post : List Event) (hx : x ∉ seg)
    (h : seg ++ rest = pre ++ x :: post) :
    ∃ mid, pre = seg ++ mid ∧ rest = mid ++ x :: post := by
  rcases split_append x seg rest pre post h with ⟨mid, h1, _⟩ | hr
  · exact absurd (by rw [h1]; simp) hx
  · exact hr

theorem pollTrace_no_true_read : ∀ n, Event.emergency_stop_signal true ∉ pollTrace n
  | 0 => by simp [pollTrace]
  | n + 1 => by simp [pollTrace, pollTrace_no_true_read n]

/-- A true emergency-stop read of the cycle trace that lies in or after a step:
either it is the read on which that step tripped, and then the step goes on with
the three brakes and the status text only, or it lies after the whole step. -/
theorem split_step (id : MotorId) (dir : MotorDirection) (duty m : Nat) (trip : Bool)
    (rest pre post : List Event)
    (h : (Event.motor_set id dir duty :: stepTail id m trip) ++ rest =
      pre ++ Event.emergency_stop_signal true :: post) :
    (trip = true ∧ pre = Event.motor_set id dir duty :: pollTrace m ∧
        post = afterTripRead ++ rest) ∨
      (∃ mid, pre = (Event.motor_set id dir duty :: stepTail id m trip) ++ mid ∧
        rest = mid ++ Event.emergency_stop_signal true :: post) := by
  cases trip with
  | false =>
    refine Or.inr (split_after _ _ rest pre post ?_ h)
    simp [stepTail, pollTrace_no_true_read]
  | true =>
    have hshape : (Event.motor_set id dir duty :: stepTail id m true) ++ rest =
        (Event.motor_set id dir duty :: pollTrace m) ++
          (Event.emergency_stop_signal true :: (afterTripRead ++ rest)) := by
      simp [stepTail, tripTrace, afterTripRead]
    rw [hshape] at h
    obtain ⟨mid, hpre, hmid⟩ := split_after _ (Event.motor_set id dir duty :: pollTrace m) _
      pre post (by simp [pollTrace_no_true_read]) h
    cases mid with
    | nil =>
      simp only [List.nil_append, List.cons.injEq, true_and] at hmid
      exact Or.inl ⟨rfl, by simpa using hpre, hmid.symm⟩
    | cons y mid' =>
      simp only [List.cons_append, List.cons.injEq] at hmid
      obtain ⟨hy, hrest⟩ := hmid
      obtain ⟨mid'', h1, h2⟩ := split_after _ afterTripRead rest mid' post
        (by simp [afterTripRead]) hrest
      refine Or.inr ⟨mid'', ?_, h2⟩
      rw [hpre, ← hy, h1]
      simp [stepTail, tripTrace, afterTripRead]

theorem cycleRest_motor_sets (j : Nat) (r2 r3 r4 r5 : Nat × Bool) (h1 : 1 ≤ j) (h5 : j ≤ 5) :
    (afterTripRead ++ cycleRest j r2 r3 r4 r5).filter Event.isMotorSet =
      scriptedMotorSets.drop j := by
  have hj : j = 1 ∨ j = 2 ∨ j = 3 ∨ j = 4 ∨ j = 5 := by omega
  rcases hj with rfl | rfl | rfl | rfl | rfl <;>
    simp [cycleRest, afterTripRead, scriptedMotorSets, List.filter_append, List.filter_cons,
      stepTail_filter_isMotorSet, Event.isMotorSet]

theorem after_trip_goal (pre post restSegs : List Event) (j : Nat) (r2 r3 r4 r5 : Nat × Bool)
    (h1 : 1 ≤ j) (h5 : j ≤ 5) (hj : (pre.filter Event.isMotorSet).length = j)
    (hpost : post = afterTripRead ++ restSegs) (hrest : restSegs = cycleRest j r2 r3 r4 r5) :
    1 ≤ (pre.filter Event.isMotorSet).length ∧ (pre.filter Event.isMotorSet).length ≤ 5 ∧
    post = afterTripRead ++ cycleRest (pre.filter Event.isMotorSet).length r2 r3 r4 r5 ∧
    post.filter Event.isMotorSet =
      scriptedMotorSets.drop (pre.filter Event.isMotorSet).length := by
  rw [hj, hpost, hrest]
  exact ⟨h1, h5, rfl, cycleRest_motor_sets j r2 r3 r4 r5 h1 h5⟩

/-- C6 (amended). On every emergency-stop stream the harvest cycle returns,
and wherever its trace holds a read that observed the emergency stop asserted,
say in step `j` (the number of `motor_set` commands issued up to that read, 1 to
5), what follows that read is exactly: the brakes of GRIPPER, VERTICAL and AUX
and the text "EMERGENCY STOP\n", which end the step, and then the rest of the
script (`cycleRest j`): for each of the steps `j + 1 .. 5` the 150 ms settle
delay, the step's status text, its `motor_set` and what that step issues; then
LED off and the END text. So the tripped step issues nothing after its three
brakes and status text, and the `motor_set` commands issued after the trip are
exactly those of the remaining scripted steps, in order: none only when the
trip is in step 5. -/
theorem harvest_cycle_after_trip (inp : Inputs) (fuel : Nat) (w : World)
    (hfuel : 120 < fuel) :
    ∃ w' r2 r3 r4 r5, tool_run_single_harvest_cycle inp fuel w = some w' ∧
      ∀ pre post, issued w w' = pre ++ Event.emergency_stop_signal true :: post →
        1 ≤ (pre.filter Event.isMotorSet).length ∧
        (pre.filter Event.isMotorSet).length ≤ 5 ∧
        post = [Event.motor_brake MOTOR_GRIPPER, Event.motor_brake MOTOR_VERTICAL,
            Event.motor_brake MOTOR_AUX, Event.send_status "EMERGENCY STOP\n"] ++
          cycleRest (pre.filter Event.isMotorSet).length r2 r3 r4 r5 ∧
        post.filter Event.isMotorSet =
          scriptedMotorSets.drop (pre.filter Event.isMotorSet).length := by
  obtain ⟨r1, r2, r3, r4, r5, hrun, _⟩ := tool_run_single_harvest_cycle_total inp fuel w hfuel
  refine ⟨_, r2, r3, r4, r5, hrun, ?_⟩
  intro pre post hsplit
  rw [cycleWorld_issued, cycleTrace_segments] at hsplit
  have hset : ∀ n, (pollTrace n).filter Event.isMotorSet = [] :=
    pollTrace_filter Event.isMotorSet rfl rfl
  obtain ⟨q1, hq1, g1⟩ := split_after _ _ _ pre post (by simp) hsplit
  rcases split_step MOTOR_GRIPPER MOTOR_DIR_FORWARD 60 r1.1 r1.2 _ q1 post g1 with
    ⟨_, hpre, hpost⟩ | ⟨p1, hp1, e1⟩
  · refine after_trip_goal pre post _ 1 r2 r3 r4 r5 (by decide) (by decide) ?_ hpost
      (by simp [cycleRest])
    rw [hq1, hpre]
    simp [List.filter_append, List.filter_cons, Event.isMotorSet, hset,
      stepTail_filter_isMotorSet]
  obtain ⟨q2, hq2, g2⟩ := split_after _ _ _ p1 post (by simp) e1
  rcases split_step MOTOR_GRIPPER MOTOR_DIR_REVERSE 60 r2.1 r2.2 _ q2 post g2 with
    ⟨_, hpre, hpost⟩ | ⟨p2, hp2, e2⟩
  · refine after_trip_goal pre post _ 2 r2 r3 r4 r5 (by decide) (by decide) ?_ hpost
      (by simp [cycleRest])
    rw [hq1, hp1, hq2, hpre]
    simp [List.filter_append, List.filter_cons, Event.isMotorSet, hset,
      stepTail_filter_isMotorSet]
  obtain ⟨q3, hq3, g3⟩ := split_after _ _ _ p2 post (by simp) e2
  rcases split_step MOTOR_VERTICAL MOTOR_DIR_FORWARD 70 r3.1 r3.2 _ q3 post g3 with
    ⟨_, hpre, hpost⟩ | ⟨p3, hp3, e3⟩
  · refine after_trip_goal pre post _ 3 r2 r3 r4 r5 (by decide) (by decide) ?_ hpost
      (by simp [cycleRest])
    rw [hq1, hp1, hq2, hp2, hq3, hpre]
    simp [List.filter_append, List.filter_cons, Event.isMotorSet, hset,
      stepTail_filter_isMotorSet]
  obtain ⟨q4, hq4, g4⟩ := split_after _ _ _ p3 post (by simp) e3
  rcases split_step MOTOR_VERTICAL MOTOR_DIR_REVERSE 70 r4.1 r4.2 _ q4 post g4 with
    ⟨_, hpre, hpost⟩ | ⟨p4, hp4, e4⟩
  · refine after_trip_goal pre post _ 4 r2 r3 r4 r5 (by decide) (by decide) ?_ hpost
      (by simp [cycleRest])
    rw [hq1, hp1, hq2, hp2, hq3, hp3, hq4, hpre]
    simp [List.filter_append, List.filter_cons, Event.isMotorSet, hset,
      stepTail_filter_isMotorSet]
  obtain ⟨q5, hq5, g5⟩ := split_after _ _ _ p4 post (by simp) e4
  rcases split_step MOTOR_GRIPPER MOTOR_DIR_FORWARD 60 r5.1 r5.2 _ q5 post g5 with
    ⟨_, hpre, hpost⟩ | ⟨p5, hp5, e5⟩
  · refine after_trip_goal pre post _ 5 r2 r3 r4 r5 (by decide) (by decide) ?_ hpost
      (by simp [cycleRest])
    rw [hq1, hp1, hq2, hp2, hq3, hp3, hq4, hp4, hq5, hpre]
    simp [List.filter_append, List.filter_cons, Event.isMotorSet, hset,
      stepTail_filter_isMotorSet]
  have hE : [Event.set_status_led false, Event.send_status "[Tool] Harvest cycle END\n"] ++ [] =
      p5 ++ Event.emergency_stop_signal true :: post := by
    rw [List.append_nil]
    exact e5
  obtain ⟨_, _, hend⟩ := split_after _ _ _ p5 post (by simp) hE
  simp at hend

/-- C6 (amended), at the inputs whose emergency stop reads true once, at the
first poll of step 1. -/
theorem harvest_cycle_after_trip_witness :
    ∃ w' r2 r3 r4 r5, tool_run_single_harvest_cycle (estopOnlyAt 0) 121 World.init = some w' ∧
      ∀ pre post, issued World.init w' = pre ++ Event.emergency_stop_signal true :: post →
        1 ≤ (pre.filter Event.isMotorSet).length ∧
        (pre.filter Event.isMotorSet).length ≤ 5 ∧
        post = [Event.motor_brake MOTOR_GRIPPER, Event.motor_brake MOTOR_VERTICAL,
            Event.motor_brake MOTOR_AUX, Event.send_status "EMERGENCY STOP\n"] ++
          cycleRest (pre.filter Event.isMotorSet).length r2 r3 r4 r5 ∧
        post.filter Event.isMotorSet =
          scriptedMotorSets.drop (pre.filter Event.isMotorSet).length :=
  harvest_cycle_after_trip (estopOnlyAt 0) 121 World.init (by decide)

end Harvester
